import Mathlib

/-!
Verification of the discrete elastic rod (DER) simulator in DER.py.

The numeric arrays of the program are modelled over the real numbers:
a numpy 3-vector becomes a `Vec3`, the global DOF vector becomes a
function from natural-number indices to reals, and a dense matrix
becomes a function of two indices.  Every definition below transcribes
the corresponding Python function of DER.py.
-/

noncomputable section

namespace DER

/-- A 3-dimensional real vector, modelling a numpy array of shape (3,). -/
@[ext]
structure Vec3 where
  x : ℝ
  y : ℝ
  z : ℝ

namespace Vec3

instance : Zero Vec3 := ⟨⟨0, 0, 0⟩⟩

instance : Add Vec3 := ⟨fun a b => ⟨a.x + b.x, a.y + b.y, a.z + b.z⟩⟩

instance : Sub Vec3 := ⟨fun a b => ⟨a.x - b.x, a.y - b.y, a.z - b.z⟩⟩

instance : Neg Vec3 := ⟨fun a => ⟨-a.x, -a.y, -a.z⟩⟩

instance : SMul ℝ Vec3 := ⟨fun r a => ⟨r * a.x, r * a.y, r * a.z⟩⟩

instance : HDiv Vec3 ℝ Vec3 := ⟨fun a r => ⟨a.x / r, a.y / r, a.z / r⟩⟩

@[simp] lemma zero_x : (0 : Vec3).x = 0 := rfl
@[simp] lemma zero_y : (0 : Vec3).y = 0 := rfl
@[simp] lemma zero_z : (0 : Vec3).z = 0 := rfl
@[simp] lemma add_x (a b : Vec3) : (a + b).x = a.x + b.x := rfl
@[simp] lemma add_y (a b : Vec3) : (a + b).y = a.y + b.y := rfl
@[simp] lemma add_z (a b : Vec3) : (a + b).z = a.z + b.z := rfl
@[simp] lemma sub_x (a b : Vec3) : (a - b).x = a.x - b.x := rfl
@[simp] lemma sub_y (a b : Vec3) : (a - b).y = a.y - b.y := rfl
@[simp] lemma sub_z (a b : Vec3) : (a - b).z = a.z - b.z := rfl
@[simp] lemma neg_x (a : Vec3) : (-a).x = -a.x := rfl
@[simp] lemma neg_y (a : Vec3) : (-a).y = -a.y := rfl
@[simp] lemma neg_z (a : Vec3) : (-a).z = -a.z := rfl
@[simp] lemma smul_x (r : ℝ) (a : Vec3) : (r • a).x = r * a.x := rfl
@[simp] lemma smul_y (r : ℝ) (a : Vec3) : (r • a).y = r * a.y := rfl
@[simp] lemma smul_z (r : ℝ) (a : Vec3) : (r • a).z = r * a.z := rfl
@[simp] lemma div_x (a : Vec3) (r : ℝ) : (a / r).x = a.x / r := rfl
@[simp] lemma div_y (a : Vec3) (r : ℝ) : (a / r).y = a.y / r := rfl
@[simp] lemma div_z (a : Vec3) (r : ℝ) : (a / r).z = a.z / r := rfl
@[simp] lemma mk_x (a b c : ℝ) : (Vec3.mk a b c).x = a := rfl
@[simp] lemma mk_y (a b c : ℝ) : (Vec3.mk a b c).y = b := rfl
@[simp] lemma mk_z (a b c : ℝ) : (Vec3.mk a b c).z = c := rfl

/-- Dot product of two 3-vectors, as computed by np.dot. -/
def dot (a b : Vec3) : ℝ := a.x * b.x + a.y * b.y + a.z * b.z

/-- Cross product of two 3-vectors, as computed by np.cross. -/
def cross (a b : Vec3) : Vec3 :=
  ⟨a.y * b.z - a.z * b.y, a.z * b.x - a.x * b.z, a.x * b.y - a.y * b.x⟩

/-- Euclidean norm of a 3-vector, as computed by np.linalg.norm. -/
def norm (a : Vec3) : ℝ := Real.sqrt (dot a a)

/-- Component access by index, modelling numpy indexing v[i] (0, 1 or 2). -/
def get (a : Vec3) : ℕ → ℝ
  | 0 => a.x
  | 1 => a.y
  | 2 => a.z
  | _ => 0

@[simp] lemma get_zero (a : Vec3) : a.get 0 = a.x := rfl
@[simp] lemma get_one (a : Vec3) : a.get 1 = a.y := rfl
@[simp] lemma get_two (a : Vec3) : a.get 2 = a.z := rfl

lemma get_smul (r : ℝ) (a : Vec3) (k : ℕ) : (r • a).get k = r * a.get k := by
  match k with
  | 0 => rfl
  | 1 => rfl
  | 2 => rfl
  | n + 3 => simp [get, mul_zero]

lemma get_neg (a : Vec3) (k : ℕ) : (-a).get k = -(a.get k) := by
  match k with
  | 0 => rfl
  | 1 => rfl
  | 2 => rfl
  | n + 3 => simp [get, neg_zero]

lemma dot_comm (a b : Vec3) : dot a b = dot b a := by unfold dot; ring

lemma cross_self (a : Vec3) : cross a a = 0 := by
  unfold cross; ext <;> simp <;> ring

lemma dot_cross_left (a b : Vec3) : dot (cross a b) a = 0 := by
  unfold dot cross; simp; ring

lemma dot_cross_right (a b : Vec3) : dot (cross a b) b = 0 := by
  unfold dot cross; simp; ring

/-- The Lagrange identity for the cross product. -/
lemma dot_cross_self (a b : Vec3) :
    dot (cross a b) (cross a b) = dot a a * dot b b - dot a b ^ 2 := by
  unfold dot cross; simp; ring

lemma dot_self_nonneg (a : Vec3) : 0 ≤ dot a a := by
  unfold dot; nlinarith [sq_nonneg a.x, sq_nonneg a.y, sq_nonneg a.z]

lemma eq_zero_of_dot_self_eq_zero {a : Vec3} (h : dot a a = 0) : a = 0 := by
  unfold dot at h
  ext <;> simp <;> nlinarith [sq_nonneg a.x, sq_nonneg a.y, sq_nonneg a.z]

lemma dot_self_pos {a : Vec3} (h : a ≠ 0) : 0 < dot a a := by
  rcases lt_or_eq_of_le (dot_self_nonneg a) with h1 | h1
  · exact h1
  · exact absurd (eq_zero_of_dot_self_eq_zero h1.symm) h

lemma norm_nonneg (a : Vec3) : 0 ≤ norm a := Real.sqrt_nonneg _

lemma norm_sq (a : Vec3) : norm a ^ 2 = dot a a :=
  Real.sq_sqrt (dot_self_nonneg a)

lemma norm_eq_zero_iff (a : Vec3) : norm a = 0 ↔ a = 0 := by
  constructor
  · intro h
    have h2 : dot a a ≤ 0 := Real.sqrt_eq_zero'.mp h
    exact eq_zero_of_dot_self_eq_zero (le_antisymm h2 (dot_self_nonneg a))
  · intro h
    subst h
    have : dot (0 : Vec3) (0 : Vec3) = 0 := by unfold dot; simp
    unfold norm
    rw [this, Real.sqrt_zero]

lemma norm_pos {a : Vec3} (h : a ≠ 0) : 0 < norm a := by
  rcases lt_or_eq_of_le (norm_nonneg a) with h1 | h1
  · exact h1
  · exact absurd ((norm_eq_zero_iff a).mp h1.symm) h

lemma dot_add_left (a b c : Vec3) : dot (a + b) c = dot a c + dot b c := by
  unfold dot; simp; ring

lemma dot_smul_left (r : ℝ) (a b : Vec3) : dot (r • a) b = r * dot a b := by
  unfold dot; simp; ring

lemma dot_div_left (a : Vec3) (r : ℝ) (b : Vec3) : dot (a / r) b = dot a b / r := by
  unfold dot; simp; ring

lemma dot_div_both (a b : Vec3) (r s : ℝ) : dot (a / r) (b / s) = dot a b / (r * s) := by
  unfold dot
  simp [div_mul_div_comm, div_add_div_same]

/-- The orthonormal-expansion identity: for a right-handed orthonormal pair
a, b, the squares of the coordinates of u along a, b and a x b sum to
the squared norm of u. -/
lemma dot_self_expand (a b u : Vec3) (ha : dot a a = 1) (hb : dot b b = 1)
    (hab : dot a b = 0) :
    dot u u = dot u a ^ 2 + dot u b ^ 2 + dot u (cross a b) ^ 2 := by
  have key : dot u a ^ 2 * dot b b - 2 * dot u a * dot u b * dot a b
      + dot u b ^ 2 * dot a a + dot u (cross a b) ^ 2
      = (dot a a * dot b b - dot a b ^ 2) * dot u u := by
    unfold dot cross
    simp
    ring
  rw [ha, hb, hab] at key
  nlinarith [key]

end Vec3

open Vec3

/-- Two-argument arctangent, modelling np.arctan2 (range (-pi, pi]). -/
def arctan2 (y x : ℝ) : ℝ := Complex.arg ⟨x, y⟩

/-- The signed angle from u to v about the axis n, from DER.py (signedAngle):
the unsigned angle is arctan2 of the cross-product norm and the dot product,
and the sign is flipped when n points against u x v. -/
def signedAngle (u v n : Vec3) : ℝ :=
  if dot n (cross u v) < 0 then -(arctan2 (norm (cross u v)) (dot u v))
  else arctan2 (norm (cross u v)) (dot u v)

/-- Rodrigues rotation of v about the axis z by the angle t, from DER.py
(rotateAxisAngle); an exact no-op when the angle is zero. -/
def rotateAxisAngle (v z : Vec3) (t : ℝ) : Vec3 :=
  if t = 0 then v
  else Real.cos t • v + Real.sin t • cross z v + (dot z v * (1 - Real.cos t)) • z

/-- Parallel transport of the vector u from the tangent t1 to the tangent t2,
from DER.py (parallel_transport), including the zero-cross-product fallback
and the two re-orthogonalization passes of the binormal. -/
def parallel_transport (u t1 t2 : Vec3) : Vec3 :=
  if norm (cross t1 t2) = 0 then u
  else
    let b1 := cross t1 t2 / norm (cross t1 t2)
    let b2 := b1 - dot b1 t1 • t1
    let b3 := b2 / norm b2
    let b4 := b3 - dot b3 t2 • t2
    let b5 := b4 / norm b4
    let n1 := cross t1 b5
    let n2 := cross t2 b5
    dot u t1 • t2 + dot u n1 • n2 + dot u b5 • b5

@[simp] lemma Vec3.norm_zero : norm (0 : Vec3) = 0 := by
  unfold norm dot
  simp

/-- Shared helper: the degenerate branch of parallel transport. -/
lemma pt_of_norm_cross_zero {u t1 t2 : Vec3} (h : norm (cross t1 t2) = 0) :
    parallel_transport u t1 t2 = u := by
  unfold parallel_transport
  rw [if_pos h]

/-- Shared helper: parallel transport along one and the same tangent is the
identity. -/
lemma pt_self (u t : Vec3) : parallel_transport u t t = u := by
  apply pt_of_norm_cross_zero
  rw [cross_self]
  simp

/-- Shared helper: Rodrigues rotation by a zero angle is the exact identity. -/
lemma rotateAxisAngle_zero (v z : Vec3) : rotateAxisAngle v z 0 = v := by
  unfold rotateAxisAngle
  rw [if_pos rfl]

/-- C8: for every vector u and tangents t1, t2 whose cross product has zero
norm (in particular whenever t1 = t2), parallel_transport returns u
unchanged. -/
theorem parallel_transport_degenerate_identity (u t1 t2 : Vec3)
    (h : norm (cross t1 t2) = 0) : parallel_transport u t1 t2 = u := by
  unfold parallel_transport
  rw [if_pos h]

/-- Witness for C8 at the concrete input u = (3,4,5), t1 = t2 = (1,0,0). -/
theorem parallel_transport_degenerate_identity_witness :
    Vec3.norm (cross ⟨1, 0, 0⟩ ⟨1, 0, 0⟩) = 0 ∧
    parallel_transport ⟨3, 4, 5⟩ ⟨1, 0, 0⟩ ⟨1, 0, 0⟩ = ⟨3, 4, 5⟩ := by
  have h : norm (cross (⟨1, 0, 0⟩ : Vec3) ⟨1, 0, 0⟩) = 0 := by
    norm_num [Vec3.norm, Vec3.dot, Vec3.cross, Real.sqrt_zero]
  exact ⟨h, parallel_transport_degenerate_identity _ _ _ h⟩

/-- C9: for non-degenerate u, v, n (the axis is not perpendicular to
u x v), swapping the two vectors negates the signed angle. -/
theorem signedAngle_antisymmetric (u v n : Vec3) (h : dot n (cross u v) ≠ 0) :
    signedAngle v u n = -(signedAngle u v n) := by
  have hc : cross v u = -(cross u v) := by
    unfold cross
    ext <;> simp <;> ring
  have hn : Vec3.norm (cross v u) = Vec3.norm (cross u v) := by
    unfold Vec3.norm
    rw [hc]
    congr 1
    unfold dot
    simp
  have hd : dot v u = dot u v := dot_comm v u
  have hnc : dot n (cross v u) = -(dot n (cross u v)) := by
    rw [hc]
    unfold dot
    simp
    ring
  unfold signedAngle
  simp only [hn, hd, hnc]
  rcases lt_or_gt_of_ne h with hlt | hgt
  · rw [if_pos hlt, if_neg (by linarith : ¬(-(dot n (cross u v)) < 0)), neg_neg]
  · rw [if_neg (by linarith : ¬(dot n (cross u v) < 0)), if_pos (by linarith)]

/-- Witness for C9 at u = (1,0,0), v = (0,1,0), n = (0,0,1). -/
theorem signedAngle_antisymmetric_witness :
    dot ⟨0, 0, 1⟩ (cross ⟨1, 0, 0⟩ ⟨0, 1, 0⟩) ≠ 0 ∧
    signedAngle ⟨0, 1, 0⟩ ⟨1, 0, 0⟩ ⟨0, 0, 1⟩
      = -(signedAngle ⟨1, 0, 0⟩ ⟨0, 1, 0⟩ ⟨0, 0, 1⟩) := by
  have h : dot (⟨0, 0, 1⟩ : Vec3) (cross ⟨1, 0, 0⟩ ⟨0, 1, 0⟩) ≠ 0 := by
    norm_num [Vec3.dot, Vec3.cross]
  exact ⟨h, signedAngle_antisymmetric _ _ _ h⟩

/-- Dense real matrices (3x3, 6x6, 11x11 and global) are modelled as
functions of two natural-number indices; entries outside the array are 0. -/
abbrev Mat := ℕ → ℕ → ℝ

/-- Outer product np.outer of two 3-vectors. -/
def outer (u v : Vec3) : Mat := fun i j => u.get i * v.get j

/-- Matrix transpose np.transpose. -/
def mtrans (M : Mat) : Mat := fun i j => M j i

/-- The 3x3 identity matrix np.eye(3). -/
def Id3 : Mat := fun i j => if i = j then 1 else 0

/-- The skew (cross-product) matrix from crossMat of DER.py. -/
def crossMat (a : Vec3) : Mat := fun i j =>
  match i, j with
  | 0, 1 => -a.z
  | 0, 2 => a.y
  | 1, 0 => a.z
  | 1, 2 => -a.x
  | 2, 0 => -a.y
  | 2, 1 => a.x
  | _, _ => 0

lemma sub_eq_zero_iff_vec (a b : Vec3) : a - b = 0 ↔ a = b := by
  constructor
  · intro h
    have hx := congrArg Vec3.x h
    have hy := congrArg Vec3.y h
    have hz := congrArg Vec3.z h
    simp at hx hy hz
    ext
    · linarith [hx]
    · linarith [hy]
    · linarith [hz]
  · intro h
    subst h
    ext <;> simp

/-- Unit tangent of the edge from n0 to n1 (edge divided by its norm),
as computed throughout DER.py. -/
def unitTangent (n0 n1 : Vec3) : Vec3 := (n1 - n0) / Vec3.norm (n1 - n0)

/-- The unit gradient EA * tangent * epsX of the stretching energy, from
gradEs_hessEs of DER.py. -/
def gradEs_dFunit (n0 n1 : Vec3) (lk EA : ℝ) : Vec3 :=
  (EA * (Vec3.norm (n1 - n0) / lk - 1)) • unitTangent n0 n1

/-- The 6-entry stretching gradient dF of gradEs_hessEs: the negated unit
gradient on the first node, the unit gradient on the second. -/
def gradEs_dF (n0 n1 : Vec3) (lk EA : ℝ) : ℕ → ℝ := fun k =>
  if k < 3 then -((gradEs_dFunit n0 n1 lk EA).get k)
  else if k < 6 then (gradEs_dFunit n0 n1 lk EA).get (k - 3)
  else 0

/-- The 3x3 block M of the stretching Hessian of gradEs_hessEs. -/
def gradEs_M (n0 n1 : Vec3) (lk EA : ℝ) : Mat :=
  EA • ((1 / lk - 1 / Vec3.norm (n1 - n0)) • Id3
    + (1 / Vec3.norm (n1 - n0)) •
      ((1 / Vec3.norm (n1 - n0) ^ 2) • outer (n1 - n0) (n1 - n0)))

/-- The 6x6 stretching Hessian dJ of gradEs_hessEs, with positive diagonal
blocks M and negative off-diagonal blocks -M. -/
def gradEs_dJ (n0 n1 : Vec3) (lk EA : ℝ) : Mat := fun i j =>
  if i < 3 then
    (if j < 3 then gradEs_M n0 n1 lk EA i j
     else if j < 6 then -(gradEs_M n0 n1 lk EA i (j - 3)) else 0)
  else if i < 6 then
    (if j < 3 then -(gradEs_M n0 n1 lk EA (i - 3) j)
     else if j < 6 then gradEs_M n0 n1 lk EA (i - 3) (j - 3) else 0)
  else 0

lemma gradEs_M_symm (n0 n1 : Vec3) (lk EA : ℝ) (i j : ℕ) :
    gradEs_M n0 n1 lk EA i j = gradEs_M n0 n1 lk EA j i := by
  by_cases h : i = j
  · subst h
    rfl
  · unfold gradEs_M Id3 outer
    simp only [Pi.add_apply, Pi.smul_apply, smul_eq_mul, if_neg h, if_neg (Ne.symm h)]
    ring

set_option maxHeartbeats 1600000 in
/-- C6: for a single edge with distinct endpoints the stretching gradient is
EA times the unit tangent times the strain, negated on the first endpoint,
and for a stretched edge the 6x6 stretching Hessian is symmetric positive
semi-definite. -/
theorem gradEs_gradient_and_psd (n0 n1 : Vec3) (lk EA : ℝ)
    (hne : n1 ≠ n0) (hlk : 0 < lk) (hEA : 0 ≤ EA) :
    (∀ k, k < 3 →
      gradEs_dF n0 n1 lk EA (k + 3)
          = EA * (Vec3.norm (n1 - n0) / lk - 1) * (unitTangent n0 n1).get k
        ∧ gradEs_dF n0 n1 lk EA k
          = -(EA * (Vec3.norm (n1 - n0) / lk - 1) * (unitTangent n0 n1).get k))
  ∧ (∀ i j, gradEs_dJ n0 n1 lk EA i j = gradEs_dJ n0 n1 lk EA j i)
  ∧ (lk ≤ Vec3.norm (n1 - n0) → ∀ f : ℕ → ℝ,
      0 ≤ ∑ i in Finset.range 6, ∑ j in Finset.range 6,
            f i * gradEs_dJ n0 n1 lk EA i j * f j) := by
  refine ⟨?_, ?_, ?_⟩
  · intro k hk
    have h1 : ¬(k + 3 < 3) := by omega
    have h2 : k + 3 < 6 := by omega
    constructor
    · have e1 : gradEs_dF n0 n1 lk EA (k + 3)
          = (gradEs_dFunit n0 n1 lk EA).get k := by
        simp [gradEs_dF, h1, h2]
      rw [e1, gradEs_dFunit, get_smul]
    · have e2 : gradEs_dF n0 n1 lk EA k
          = -((gradEs_dFunit n0 n1 lk EA).get k) := by
        simp [gradEs_dF, hk]
      rw [e2, gradEs_dFunit, get_smul]
  · intro i j
    rcases Nat.lt_or_ge i 3 with hi | hi
    · rcases Nat.lt_or_ge j 3 with hj | hj
      · simp only [gradEs_dJ, if_pos hi, if_pos hj]
        exact gradEs_M_symm n0 n1 lk EA i j
      · rcases Nat.lt_or_ge j 6 with hj6 | hj6
        · have hj3 : ¬ j < 3 := by omega
          simp only [gradEs_dJ, if_pos hi, if_neg hj3, if_pos hj6]
          rw [gradEs_M_symm n0 n1 lk EA i (j - 3)]
        · have hj3 : ¬ j < 3 := by omega
          have hj6n : ¬ j < 6 := by omega
          simp only [gradEs_dJ, if_pos hi, if_neg hj3, if_neg hj6n]
    · have hi3 : ¬ i < 3 := by omega
      rcases Nat.lt_or_ge i 6 with hi6 | hi6
      · rcases Nat.lt_or_ge j 3 with hj | hj
        · simp only [gradEs_dJ, if_neg hi3, if_pos hi6, if_pos hj]
          rw [gradEs_M_symm n0 n1 lk EA (i - 3) j]
        · rcases Nat.lt_or_ge j 6 with hj6 | hj6
          · have hj3 : ¬ j < 3 := by omega
            simp only [gradEs_dJ, if_neg hi3, if_pos hi6, if_neg hj3, if_pos hj6]
            rw [gradEs_M_symm n0 n1 lk EA (i - 3) (j - 3)]
          · have hj3 : ¬ j < 3 := by omega
            have hj6n : ¬ j < 6 := by omega
            simp only [gradEs_dJ, if_neg hi3, if_pos hi6, if_neg hj3, if_neg hj6n]
      · have hi6n : ¬ i < 6 := by omega
        rcases Nat.lt_or_ge j 3 with hj | hj
        · simp only [gradEs_dJ, if_neg hi3, if_neg hi6n, if_pos hj]
        · rcases Nat.lt_or_ge j 6 with hj6 | hj6
          · have hj3 : ¬ j < 3 := by omega
            simp only [gradEs_dJ, if_neg hi3, if_neg hi6n, if_neg hj3, if_pos hj6]
          · have hj3 : ¬ j < 3 := by omega
            have hj6n : ¬ j < 6 := by omega
            simp only [gradEs_dJ, if_neg hi3, if_neg hi6n, if_neg hj3, if_neg hj6n]
  · intro hstr f
    have hne0 : n1 - n0 ≠ 0 := by
      rw [Ne, sub_eq_zero_iff_vec]
      exact hne
    have hL : 0 < Vec3.norm (n1 - n0) := norm_pos hne0
    have hL0 : Vec3.norm (n1 - n0) ≠ 0 := ne_of_gt hL
    have hlk0 : lk ≠ 0 := ne_of_gt hlk
    have hMe : ∀ i j, gradEs_M n0 n1 lk EA i j
        = EA * ((1 / lk - 1 / Vec3.norm (n1 - n0)) * Id3 i j
            + (n1 - n0).get i * (n1 - n0).get j / Vec3.norm (n1 - n0) ^ 3) := by
      intro i j
      unfold gradEs_M outer
      simp only [Pi.add_apply, Pi.smul_apply, smul_eq_mul]
      field_simp
      ring
    have key : ∑ i in Finset.range 6, ∑ j in Finset.range 6,
        f i * gradEs_dJ n0 n1 lk EA i j * f j
        = EA * ((1 / lk - 1 / Vec3.norm (n1 - n0)) *
            ((f 0 - f 3) ^ 2 + (f 1 - f 4) ^ 2 + (f 2 - f 5) ^ 2)
          + ((n1.x - n0.x) * (f 0 - f 3) + (n1.y - n0.y) * (f 1 - f 4)
             + (n1.z - n0.z) * (f 2 - f 5)) ^ 2 / Vec3.norm (n1 - n0) ^ 3) := by
      simp [Finset.sum_range_succ, Finset.sum_range_zero, gradEs_dJ, hMe,
        Id3, Vec3.get]
      field_simp
      ring
    rw [key]
    have h1 : 0 ≤ 1 / lk - 1 / Vec3.norm (n1 - n0) :=
      sub_nonneg.mpr (one_div_le_one_div_of_le hlk hstr)
    have h2 : (0:ℝ) ≤ (f 0 - f 3) ^ 2 + (f 1 - f 4) ^ 2 + (f 2 - f 5) ^ 2 := by
      positivity
    have h3 : (0:ℝ) ≤ ((n1.x - n0.x) * (f 0 - f 3) + (n1.y - n0.y) * (f 1 - f 4)
        + (n1.z - n0.z) * (f 2 - f 5)) ^ 2 / Vec3.norm (n1 - n0) ^ 3 :=
      div_nonneg (sq_nonneg _) (pow_nonneg (norm_nonneg _) 3)
    exact mul_nonneg hEA (add_nonneg (mul_nonneg h1 h2) h3)

/-- Witness for C6 at the stretched edge from the origin to (2,0,0) with
unit reference length and unit stiffness. -/
theorem gradEs_gradient_and_psd_witness :
    gradEs_dF ⟨0, 0, 0⟩ ⟨2, 0, 0⟩ 1 1 3
        = 1 * (Vec3.norm ((⟨2, 0, 0⟩ : Vec3) - ⟨0, 0, 0⟩) / 1 - 1)
            * (unitTangent ⟨0, 0, 0⟩ ⟨2, 0, 0⟩).get 0
  ∧ (∀ i j, gradEs_dJ ⟨0, 0, 0⟩ ⟨2, 0, 0⟩ 1 1 i j
        = gradEs_dJ ⟨0, 0, 0⟩ ⟨2, 0, 0⟩ 1 1 j i)
  ∧ 0 ≤ ∑ i in Finset.range 6, ∑ j in Finset.range 6,
        (fun _ => (1:ℝ)) i * gradEs_dJ ⟨0, 0, 0⟩ ⟨2, 0, 0⟩ 1 1 i j
          * (fun _ => (1:ℝ)) j := by
  have hne : (⟨2, 0, 0⟩ : Vec3) ≠ ⟨0, 0, 0⟩ := by
    intro h
    have hx := congrArg Vec3.x h
    norm_num at hx
  have hd4 : Vec3.dot ((⟨2, 0, 0⟩ : Vec3) - ⟨0, 0, 0⟩)
      ((⟨2, 0, 0⟩ : Vec3) - ⟨0, 0, 0⟩) = 4 := by
    norm_num [Vec3.dot]
  have hnorm : Vec3.norm ((⟨2, 0, 0⟩ : Vec3) - ⟨0, 0, 0⟩) = 2 := by
    unfold Vec3.norm
    rw [hd4, show (4:ℝ) = 2 ^ 2 by norm_num, Real.sqrt_sq (by norm_num : (0:ℝ) ≤ 2)]
  have H := gradEs_gradient_and_psd ⟨0, 0, 0⟩ ⟨2, 0, 0⟩ 1 1 hne one_pos zero_le_one
  exact ⟨(H.1 0 (by norm_num)).1, H.2.1,
    H.2.2 (by rw [hnorm]; norm_num) (fun _ => 1)⟩

/-- Position of node c inside the global DOF vector q (slots 4c..4c+2),
per the DOF layout of DER.py. -/
def nodePos (q : ℕ → ℝ) (c : ℕ) : Vec3 := ⟨q (4 * c), q (4 * c + 1), q (4 * c + 2)⟩

/-- The local slot (0..5) of the global DOF index i inside the 6-entry
stretching index list [4c, 4c+1, 4c+2, 4c+4, 4c+5, 4c+6] of edge c used by
getFs of DER.py, or none when i is outside that list. -/
def sLoc (c i : ℕ) : Option ℕ :=
  if i = 4 * c then some 0
  else if i = 4 * c + 1 then some 1
  else if i = 4 * c + 2 then some 2
  else if i = 4 * c + 4 then some 3
  else if i = 4 * c + 5 then some 4
  else if i = 4 * c + 6 then some 5
  else none

/-- The global stretching force of getFs: the negated scatter-sum of the
local gradients of every edge. -/
def getFs_F (q : ℕ → ℝ) (EA : ℝ) (refLen : ℕ → ℝ) (nv : ℕ) : ℕ → ℝ := fun i =>
  -(∑ c in Finset.range (nv - 1),
      match sLoc c i with
      | some k => gradEs_dF (nodePos q c) (nodePos q (c + 1)) (refLen c) EA k
      | none => 0)

/-- The global stretching Jacobian of getFs: the negated scatter-sum of the
local Hessians of every edge. -/
def getFs_J (q : ℕ → ℝ) (EA : ℝ) (refLen : ℕ → ℝ) (nv : ℕ) : Mat := fun i j =>
  -(∑ c in Finset.range (nv - 1),
      match sLoc c i, sLoc c j with
      | some k, some l =>
          gradEs_dJ (nodePos q c) (nodePos q (c + 1)) (refLen c) EA k l
      | _, _ => 0)

lemma sLoc_eq_none_of_mod {c i : ℕ} (hi : i % 4 = 3) : sLoc c i = none := by
  unfold sLoc
  have h0 : i ≠ 4 * c := by omega
  have h1 : i ≠ 4 * c + 1 := by omega
  have h2 : i ≠ 4 * c + 2 := by omega
  have h3 : i ≠ 4 * c + 4 := by omega
  have h4 : i ≠ 4 * c + 5 := by omega
  have h5 : i ≠ 4 * c + 6 := by omega
  simp [h0, h1, h2, h3, h4, h5]

/-- C10: the stretching force vanishes at every twist-angle DOF (index
congruent to 3 mod 4), and the stretching Jacobian has zero rows and zero
columns there: stretching never couples to the twist DOFs. -/
theorem getFs_no_twist_coupling (q : ℕ → ℝ) (EA : ℝ) (refLen : ℕ → ℝ)
    (nv : ℕ) (i : ℕ) (hi : i % 4 = 3) :
    getFs_F q EA refLen nv i = 0
  ∧ (∀ j, getFs_J q EA refLen nv i j = 0 ∧ getFs_J q EA refLen nv j i = 0) := by
  have hn : ∀ c, sLoc c i = none := fun c => sLoc_eq_none_of_mod hi
  refine ⟨?_, fun j => ⟨?_, ?_⟩⟩
  · unfold getFs_F
    rw [neg_eq_zero]
    apply Finset.sum_eq_zero
    intro c hc
    rw [hn c]
  · unfold getFs_J
    rw [neg_eq_zero]
    apply Finset.sum_eq_zero
    intro c hc
    rw [hn c]
  · unfold getFs_J
    rw [neg_eq_zero]
    apply Finset.sum_eq_zero
    intro c hc
    rcases hj : sLoc c j with _ | k
    · rfl
    · rw [hn c]

/-- Witness for C10 at the twist DOF i = 3 of a 3-node rod with all DOFs
and reference lengths equal to 1. -/
theorem getFs_no_twist_coupling_witness :
    getFs_F (fun _ => 1) 1 (fun _ => 1) 3 3 = 0
  ∧ (∀ j, getFs_J (fun _ => 1) 1 (fun _ => 1) 3 3 j = 0
      ∧ getFs_J (fun _ => 1) 1 (fun _ => 1) 3 j 3 = 0) :=
  getFs_no_twist_coupling (fun _ => 1) 1 (fun _ => 1) 3 3 (by norm_num)

@[simp] lemma Vec3.zero_smul_vec (v : Vec3) : (0 : ℝ) • v = 0 := by
  ext <;> simp

@[simp] lemma Vec3.sub_zero_vec (a : Vec3) : a - (0 : Vec3) = a := by
  ext <;> simp

@[simp] lemma Vec3.div_one_vec (a : Vec3) : a / (1 : ℝ) = a := by
  ext <;> simp

lemma dot_smul_right (r : ℝ) (a b : Vec3) : dot a (r • b) = r * dot a b := by
  unfold Vec3.dot
  simp
  ring

lemma dot_comb_left (a b c w : Vec3) (p s r : ℝ) :
    dot (p • a + s • b + r • c) w = p * dot a w + s * dot b w + r * dot c w := by
  unfold Vec3.dot
  simp
  ring

lemma dot_comb_self (a b c : Vec3) (p s r : ℝ) :
    dot (p • a + s • b + r • c) (p • a + s • b + r • c)
      = p ^ 2 * dot a a + s ^ 2 * dot b b + r ^ 2 * dot c c
        + 2 * p * s * dot a b + 2 * p * r * dot a c + 2 * s * r * dot b c := by
  unfold Vec3.dot
  simp
  ring

/-- The value of parallel transport in the non-degenerate branch: in exact
arithmetic the two re-orthogonalization passes of DER.py are the identity,
so the transport is the rotation formula built on the normalized binormal. -/
lemma pt_eval {t1 t2 : Vec3} (u : Vec3) (hz : Vec3.norm (cross t1 t2) ≠ 0) :
    parallel_transport u t1 t2
      = dot u t1 • t2
        + dot u (cross t1 (cross t1 t2 / Vec3.norm (cross t1 t2)))
            • cross t2 (cross t1 t2 / Vec3.norm (cross t1 t2))
        + dot u (cross t1 t2 / Vec3.norm (cross t1 t2))
            • (cross t1 t2 / Vec3.norm (cross t1 t2)) := by
  have hb1t1 : dot (cross t1 t2 / Vec3.norm (cross t1 t2)) t1 = 0 := by
    rw [dot_div_left, dot_cross_left, zero_div]
  have hb1t2 : dot (cross t1 t2 / Vec3.norm (cross t1 t2)) t2 = 0 := by
    rw [dot_div_left, dot_cross_right, zero_div]
  have hbb : dot (cross t1 t2 / Vec3.norm (cross t1 t2))
      (cross t1 t2 / Vec3.norm (cross t1 t2)) = 1 := by
    rw [dot_div_both, show Vec3.norm (cross t1 t2) * Vec3.norm (cross t1 t2)
        = Vec3.norm (cross t1 t2) ^ 2 by ring, norm_sq]
    exact div_self fun h => hz ((norm_eq_zero_iff _).mpr
      (eq_zero_of_dot_self_eq_zero h))
  have hnorm1 : Vec3.norm (cross t1 t2 / Vec3.norm (cross t1 t2)) = 1 := by
    have hdef : Vec3.norm (cross t1 t2 / Vec3.norm (cross t1 t2))
        = Real.sqrt (dot (cross t1 t2 / Vec3.norm (cross t1 t2))
            (cross t1 t2 / Vec3.norm (cross t1 t2))) := rfl
    rw [hdef, hbb, Real.sqrt_one]
  unfold parallel_transport
  rw [if_neg hz]
  simp only [hb1t1, hb1t2, hnorm1, Vec3.zero_smul_vec, Vec3.sub_zero_vec,
    Vec3.div_one_vec]

/-- Exact-arithmetic preservation: parallel transport of a vector
perpendicular to the source tangent preserves its squared norm and is
perpendicular to the target tangent. -/
lemma parallel_transport_preserves {u t1 t2 : Vec3}
    (h1 : dot t1 t1 = 1) (h2 : dot t2 t2 = 1) (hu : dot u t1 = 0) :
    dot (parallel_transport u t1 t2) (parallel_transport u t1 t2) = dot u u
  ∧ dot (parallel_transport u t1 t2) t2 = 0 := by
  by_cases hz : Vec3.norm (cross t1 t2) = 0
  · rw [pt_of_norm_cross_zero hz]
    have hb : cross t1 t2 = 0 := by
      have hd : dot (cross t1 t2) (cross t1 t2) ≤ 0 := Real.sqrt_eq_zero'.mp hz
      exact eq_zero_of_dot_self_eq_zero (le_antisymm hd (dot_self_nonneg _))
    have hs : dot t1 t2 ^ 2 = 1 := by
      have hl := dot_cross_self t1 t2
      rw [hb] at hl
      have h0 : dot (0 : Vec3) (0 : Vec3) = 0 := by
        unfold Vec3.dot
        simp
      rw [h0, h1, h2] at hl
      linarith [hl]
    have hw : t2 - dot t1 t2 • t1 = 0 := by
      apply eq_zero_of_dot_self_eq_zero
      have expand : dot (t2 - dot t1 t2 • t1) (t2 - dot t1 t2 • t1)
          = dot t2 t2 - 2 * dot t1 t2 * dot t1 t2 + dot t1 t2 ^ 2 * dot t1 t1 := by
        unfold Vec3.dot
        simp
        ring
      rw [expand, h1, h2]
      nlinarith [hs]
    have ht2 : t2 = dot t1 t2 • t1 := by
      have h3 := (sub_eq_zero_iff_vec t2 (dot t1 t2 • t1)).mp hw
      exact h3
    refine ⟨rfl, ?_⟩
    conv_lhs => rw [ht2]
    rw [dot_smul_right, hu, mul_zero]
  · rw [pt_eval u hz]
    have hb1t1 : dot (cross t1 t2 / Vec3.norm (cross t1 t2)) t1 = 0 := by
      rw [dot_div_left, dot_cross_left, zero_div]
    have hb1t2 : dot (cross t1 t2 / Vec3.norm (cross t1 t2)) t2 = 0 := by
      rw [dot_div_left, dot_cross_right, zero_div]
    have hbb : dot (cross t1 t2 / Vec3.norm (cross t1 t2))
        (cross t1 t2 / Vec3.norm (cross t1 t2)) = 1 := by
      rw [dot_div_both, show Vec3.norm (cross t1 t2) * Vec3.norm (cross t1 t2)
          = Vec3.norm (cross t1 t2) ^ 2 by ring, norm_sq]
      exact div_self fun h => hz ((norm_eq_zero_iff _).mpr
        (eq_zero_of_dot_self_eq_zero h))
    constructor
    · rw [dot_comb_self]
      have hn2 : dot (cross t2 (cross t1 t2 / Vec3.norm (cross t1 t2)))
          (cross t2 (cross t1 t2 / Vec3.norm (cross t1 t2))) = 1 := by
        rw [dot_cross_self, h2, hbb, dot_comm t2, hb1t2]
        norm_num
      have hn2b : dot (cross t2 (cross t1 t2 / Vec3.norm (cross t1 t2)))
          (cross t1 t2 / Vec3.norm (cross t1 t2)) = 0 :=
        dot_cross_right _ _
      have ht2n2 : dot t2 (cross t2 (cross t1 t2 / Vec3.norm (cross t1 t2))) = 0 := by
        rw [dot_comm]
        exact dot_cross_left _ _
      have ht2b : dot t2 (cross t1 t2 / Vec3.norm (cross t1 t2)) = 0 := by
        rw [dot_comm]
        exact hb1t2
      rw [hu, hn2, hn2b, hbb, h2, ht2n2, ht2b]
      have hexp := dot_self_expand t1 (cross t1 t2 / Vec3.norm (cross t1 t2)) u
        h1 hbb (by rw [dot_comm]; exact hb1t1)
      rw [hexp, hu]
      ring
    · rw [dot_comb_left, hu, dot_cross_left, hb1t2, h2]
      ring

/-- The unit tangent of edge c of the DOF vector q, from computeTangent of
DER.py. -/
def computeTangent (q : ℕ → ℝ) (c : ℕ) : Vec3 :=
  unitTangent (nodePos q c) (nodePos q (c + 1))

lemma tangent_unit {q : ℕ → ℝ} {c : ℕ}
    (h : 0 < dot (nodePos q (c + 1) - nodePos q c) (nodePos q (c + 1) - nodePos q c)) :
    dot (computeTangent q c) (computeTangent q c) = 1 := by
  unfold computeTangent unitTangent
  rw [dot_div_both, show Vec3.norm (nodePos q (c + 1) - nodePos q c)
      * Vec3.norm (nodePos q (c + 1) - nodePos q c)
      = Vec3.norm (nodePos q (c + 1) - nodePos q c) ^ 2 by ring, norm_sq]
  exact div_self (ne_of_gt h)

/-- First reference director per edge from computeSpaceParallel of DER.py:
the seed on edge 0, then the transported, re-orthogonalized and normalized
director on each following edge. -/
def spaceParallelD1 (q : ℕ → ℝ) (seed : Vec3) : ℕ → Vec3
  | 0 => seed
  | c + 1 =>
      (parallel_transport (spaceParallelD1 q seed c)
          (computeTangent q c) (computeTangent q (c + 1))
        - dot (parallel_transport (spaceParallelD1 q seed c)
            (computeTangent q c) (computeTangent q (c + 1)))
            (computeTangent q (c + 1)) • computeTangent q (c + 1))
      / Vec3.norm (parallel_transport (spaceParallelD1 q seed c)
          (computeTangent q c) (computeTangent q (c + 1))
        - dot (parallel_transport (spaceParallelD1 q seed c)
            (computeTangent q c) (computeTangent q (c + 1)))
            (computeTangent q (c + 1)) • computeTangent q (c + 1))

/-- Second reference director per edge from computeSpaceParallel of DER.py:
the cross product of the edge tangent with the first director. -/
def spaceParallelD2 (q : ℕ → ℝ) (seed : Vec3) (c : ℕ) : Vec3 :=
  cross (computeTangent q c) (spaceParallelD1 q seed c)

/-- The transported and tangent-orthogonalized old director of edge c, from
computeTimeParallel of DER.py (before normalization). -/
def timeParallelW (a1old : ℕ → Vec3) (q0 q : ℕ → ℝ) (c : ℕ) : Vec3 :=
  parallel_transport (a1old c) (computeTangent q0 c) (computeTangent q c)
    - dot (parallel_transport (a1old c) (computeTangent q0 c) (computeTangent q c))
        (computeTangent q c) • computeTangent q c

/-- First updated reference director of computeTimeParallel of DER.py. -/
def timeParallelA1 (a1old : ℕ → Vec3) (q0 q : ℕ → ℝ) (c : ℕ) : Vec3 :=
  timeParallelW a1old q0 q c / Vec3.norm (timeParallelW a1old q0 q c)

/-- Second updated reference director of computeTimeParallel of DER.py. -/
def timeParallelA2 (a1old : ℕ → Vec3) (q0 q : ℕ → ℝ) (c : ℕ) : Vec3 :=
  cross (computeTangent q c) (timeParallelA1 a1old q0 q c)

lemma norm_eq_one_of_dot {v : Vec3} (h : dot v v = 1) : Vec3.norm v = 1 := by
  have hdef : Vec3.norm v = Real.sqrt (dot v v) := rfl
  rw [hdef, h, Real.sqrt_one]

lemma frame_cross_props {t d : Vec3} (htt : dot t t = 1) (hdd : dot d d = 1)
    (hdt : dot d t = 0) :
    dot (cross t d) (cross t d) = 1 ∧ dot (cross t d) t = 0
      ∧ dot d (cross t d) = 0 := by
  refine ⟨?_, dot_cross_left t d, ?_⟩
  · rw [dot_cross_self, htt, hdd, dot_comm t d, hdt]
    norm_num
  · rw [dot_comm]
    exact dot_cross_right t d

lemma spaceParallelD1_invariant (q : ℕ → ℝ) (seed : Vec3) (ne : ℕ)
    (hq : ∀ c, c < ne → 0 < dot (nodePos q (c + 1) - nodePos q c)
      (nodePos q (c + 1) - nodePos q c))
    (hs1 : dot seed seed = 1) (hs2 : dot seed (computeTangent q 0) = 0) :
    ∀ c, c < ne →
      dot (spaceParallelD1 q seed c) (spaceParallelD1 q seed c) = 1
      ∧ dot (spaceParallelD1 q seed c) (computeTangent q c) = 0 := by
  intro c
  induction c with
  | zero => exact fun _ => ⟨hs1, hs2⟩
  | succ c ih =>
    intro h
    have hc : c < ne := by omega
    obtain ⟨ih1, ih2⟩ := ih hc
    have ht1 : dot (computeTangent q c) (computeTangent q c) = 1 :=
      tangent_unit (hq c hc)
    have ht2 : dot (computeTangent q (c + 1)) (computeTangent q (c + 1)) = 1 :=
      tangent_unit (hq (c + 1) h)
    obtain ⟨hp1, hp2⟩ := parallel_transport_preserves ht1 ht2 ih2
    have hw : parallel_transport (spaceParallelD1 q seed c)
          (computeTangent q c) (computeTangent q (c + 1))
        - dot (parallel_transport (spaceParallelD1 q seed c)
            (computeTangent q c) (computeTangent q (c + 1)))
            (computeTangent q (c + 1)) • computeTangent q (c + 1)
        = parallel_transport (spaceParallelD1 q seed c)
            (computeTangent q c) (computeTangent q (c + 1)) := by
      rw [hp2]
      simp
    have hnormw : Vec3.norm (parallel_transport (spaceParallelD1 q seed c)
        (computeTangent q c) (computeTangent q (c + 1))) = 1 :=
      norm_eq_one_of_dot (by rw [hp1, ih1])
    have hstep : spaceParallelD1 q seed (c + 1)
        = parallel_transport (spaceParallelD1 q seed c)
            (computeTangent q c) (computeTangent q (c + 1)) := by
      simp only [spaceParallelD1]
      rw [hw, hnormw]
      simp
    rw [hstep]
    exact ⟨by rw [hp1, ih1], hp2⟩

lemma timeParallelW_perp (a1old : ℕ → Vec3) (q0 q : ℕ → ℝ) (c : ℕ)
    (ht : dot (computeTangent q c) (computeTangent q c) = 1) :
    dot (timeParallelW a1old q0 q c) (computeTangent q c) = 0 := by
  unfold timeParallelW
  have expand : ∀ v t : Vec3,
      dot (v - dot v t • t) t = dot v t - dot v t * dot t t := by
    intro v t
    unfold Vec3.dot
    simp
    ring
  rw [expand, ht]
  ring

/-- C7: under the stated preconditions, both computeSpaceParallel and
computeTimeParallel produce, on each edge, a unit first director
perpendicular to the tangent together with a unit second director equal to
tangent x first director, perpendicular to both. -/
theorem reference_frame_orthonormal (q0 q : ℕ → ℝ) (seed : Vec3)
    (a1old : ℕ → Vec3) (ne : ℕ)
    (hq : ∀ c, c < ne → 0 < dot (nodePos q (c + 1) - nodePos q c)
      (nodePos q (c + 1) - nodePos q c))
    (hs1 : dot seed seed = 1)
    (hs2 : dot seed (computeTangent q 0) = 0)
    (hw : ∀ c, c < ne → timeParallelW a1old q0 q c ≠ 0) :
    ∀ c, c < ne →
      (dot (spaceParallelD1 q seed c) (spaceParallelD1 q seed c) = 1
       ∧ dot (spaceParallelD1 q seed c) (computeTangent q c) = 0
       ∧ dot (spaceParallelD2 q seed c) (spaceParallelD2 q seed c) = 1
       ∧ dot (spaceParallelD2 q seed c) (computeTangent q c) = 0
       ∧ dot (spaceParallelD1 q seed c) (spaceParallelD2 q seed c) = 0
       ∧ spaceParallelD2 q seed c
           = cross (computeTangent q c) (spaceParallelD1 q seed c))
    ∧ (dot (timeParallelA1 a1old q0 q c) (timeParallelA1 a1old q0 q c) = 1
       ∧ dot (timeParallelA1 a1old q0 q c) (computeTangent q c) = 0
       ∧ dot (timeParallelA2 a1old q0 q c) (timeParallelA2 a1old q0 q c) = 1
       ∧ dot (timeParallelA2 a1old q0 q c) (computeTangent q c) = 0
       ∧ dot (timeParallelA1 a1old q0 q c) (timeParallelA2 a1old q0 q c) = 0
       ∧ timeParallelA2 a1old q0 q c
           = cross (computeTangent q c) (timeParallelA1 a1old q0 q c)) := by
  intro c hc
  have ht : dot (computeTangent q c) (computeTangent q c) = 1 :=
    tangent_unit (hq c hc)
  constructor
  · obtain ⟨hd1, hd2⟩ := spaceParallelD1_invariant q seed ne hq hs1 hs2 c hc
    obtain ⟨hx1, hx2, hx3⟩ := frame_cross_props ht hd1 hd2
    exact ⟨hd1, hd2, hx1, hx2, hx3, rfl⟩
  · have hwc := hw c hc
    have hwp : 0 < dot (timeParallelW a1old q0 q c) (timeParallelW a1old q0 q c) :=
      dot_self_pos hwc
    have hperp : dot (timeParallelW a1old q0 q c) (computeTangent q c) = 0 :=
      timeParallelW_perp a1old q0 q c ht
    have ha1 : dot (timeParallelA1 a1old q0 q c) (timeParallelA1 a1old q0 q c) = 1 := by
      unfold timeParallelA1
      rw [dot_div_both, show Vec3.norm (timeParallelW a1old q0 q c)
          * Vec3.norm (timeParallelW a1old q0 q c)
          = Vec3.norm (timeParallelW a1old q0 q c) ^ 2 by ring, norm_sq]
      exact div_self (ne_of_gt hwp)
    have ha1t : dot (timeParallelA1 a1old q0 q c) (computeTangent q c) = 0 := by
      unfold timeParallelA1
      rw [dot_div_left, hperp, zero_div]
    obtain ⟨hx1, hx2, hx3⟩ := frame_cross_props ht ha1 ha1t
    exact ⟨ha1, ha1t, hx1, hx2, hx3, rfl⟩

/-- A concrete 3-node DOF vector: nodes (0,0,0), (1,0,0), (1,1,0), both
twist angles zero. -/
def cq7 : ℕ → ℝ := fun i =>
  if i = 4 then 1 else if i = 8 then 1 else if i = 9 then 1 else 0

/-- Witness for C7 on the bent two-edge rod cq7, checked on edge 1. -/
theorem reference_frame_orthonormal_witness :
    (dot (spaceParallelD1 cq7 ⟨0, 0, 1⟩ 1) (spaceParallelD1 cq7 ⟨0, 0, 1⟩ 1) = 1
     ∧ dot (spaceParallelD1 cq7 ⟨0, 0, 1⟩ 1) (computeTangent cq7 1) = 0
     ∧ dot (spaceParallelD2 cq7 ⟨0, 0, 1⟩ 1) (spaceParallelD2 cq7 ⟨0, 0, 1⟩ 1) = 1
     ∧ dot (spaceParallelD2 cq7 ⟨0, 0, 1⟩ 1) (computeTangent cq7 1) = 0
     ∧ dot (spaceParallelD1 cq7 ⟨0, 0, 1⟩ 1) (spaceParallelD2 cq7 ⟨0, 0, 1⟩ 1) = 0
     ∧ spaceParallelD2 cq7 ⟨0, 0, 1⟩ 1
         = cross (computeTangent cq7 1) (spaceParallelD1 cq7 ⟨0, 0, 1⟩ 1))
  ∧ (dot (timeParallelA1 (fun _ => ⟨0, 0, 1⟩) cq7 cq7 1)
        (timeParallelA1 (fun _ => ⟨0, 0, 1⟩) cq7 cq7 1) = 1
     ∧ dot (timeParallelA1 (fun _ => ⟨0, 0, 1⟩) cq7 cq7 1) (computeTangent cq7 1) = 0
     ∧ dot (timeParallelA2 (fun _ => ⟨0, 0, 1⟩) cq7 cq7 1)
        (timeParallelA2 (fun _ => ⟨0, 0, 1⟩) cq7 cq7 1) = 1
     ∧ dot (timeParallelA2 (fun _ => ⟨0, 0, 1⟩) cq7 cq7 1) (computeTangent cq7 1) = 0
     ∧ dot (timeParallelA1 (fun _ => ⟨0, 0, 1⟩) cq7 cq7 1)
        (timeParallelA2 (fun _ => ⟨0, 0, 1⟩) cq7 cq7 1) = 0
     ∧ timeParallelA2 (fun _ => ⟨0, 0, 1⟩) cq7 cq7 1
         = cross (computeTangent cq7 1) (timeParallelA1 (fun _ => ⟨0, 0, 1⟩) cq7 cq7 1)) := by
  have hq : ∀ c, c < 2 → 0 < dot (nodePos cq7 (c + 1) - nodePos cq7 c)
      (nodePos cq7 (c + 1) - nodePos cq7 c) := by
    intro c hc
    interval_cases c <;> norm_num [nodePos, cq7, Vec3.dot]
  have hs1 : dot (⟨0, 0, 1⟩ : Vec3) ⟨0, 0, 1⟩ = 1 := by
    norm_num [Vec3.dot]
  have hs2 : dot (⟨0, 0, 1⟩ : Vec3) (computeTangent cq7 0) = 0 := by
    norm_num [computeTangent, unitTangent, nodePos, cq7, Vec3.dot]
  have hw : ∀ c, c < 2 → timeParallelW (fun _ => (⟨0, 0, 1⟩ : Vec3)) cq7 cq7 c ≠ 0 := by
    intro c hc
    interval_cases c
    · unfold timeParallelW
      rw [pt_self]
      intro heq
      have hz := congrArg Vec3.z heq
      norm_num [computeTangent, unitTangent, nodePos, cq7, Vec3.dot] at hz
    · unfold timeParallelW
      rw [pt_self]
      intro heq
      have hz := congrArg Vec3.z heq
      norm_num [computeTangent, unitTangent, nodePos, cq7, Vec3.dot] at hz
  exact reference_frame_orthonormal cq7 cq7 ⟨0, 0, 1⟩ (fun _ => ⟨0, 0, 1⟩) 2
    hq hs1 hs2 hw 1 (by norm_num)

/-! Bending kernel gradEb_hessEb of DER.py (Panetta et al. 2019
formulation), split into the named intermediate quantities of the source. -/

/-- chi = 1 + te . tf at a turning node. -/
def bendChi (n0 n1 n2 : Vec3) : ℝ :=
  1 + dot (unitTangent n0 n1) (unitTangent n1 n2)

/-- Curvature binormal kb = 2 (te x tf) / (1 + te . tf). -/
def bendKb (n0 n1 n2 : Vec3) : Vec3 :=
  ((2 : ℝ) • cross (unitTangent n0 n1) (unitTangent n1 n2)) / bendChi n0 n1 n2

/-- tilde_t = (te + tf) / chi. -/
def bendTildeT (n0 n1 n2 : Vec3) : Vec3 :=
  (unitTangent n0 n1 + unitTangent n1 n2) / bendChi n0 n1 n2

/-- tilde_d1 = (m1e + m1f) / chi. -/
def bendTildeD1 (n0 n1 n2 m1e m1f : Vec3) : Vec3 := (m1e + m1f) / bendChi n0 n1 n2

/-- tilde_d2 = (m2e + m2f) / chi. -/
def bendTildeD2 (n0 n1 n2 m2e m2f : Vec3) : Vec3 := (m2e + m2f) / bendChi n0 n1 n2

/-- First material curvature kappa1 = 0.5 kb . (m2e + m2f). -/
def bendKappa1 (n0 n1 n2 m2e m2f : Vec3) : ℝ :=
  0.5 * dot (bendKb n0 n1 n2) (m2e + m2f)

/-- Second material curvature kappa2 = -0.5 kb . (m1e + m1f). -/
def bendKappa2 (n0 n1 n2 m1e m1f : Vec3) : ℝ :=
  -(0.5) * dot (bendKb n0 n1 n2) (m1e + m1f)

/-- The two material curvatures at a turning node, from computekappa of
DER.py. -/
def computekappa (n0 n1 n2 m1e m2e m1f m2f : Vec3) : ℝ × ℝ :=
  (bendKappa1 n0 n1 n2 m2e m2f, bendKappa2 n0 n1 n2 m1e m1f)

/-- Dkappa1De of gradEb_hessEb. -/
def bendDkappa1De (n0 n1 n2 m2e m2f : Vec3) : Vec3 :=
  (1 / Vec3.norm (n1 - n0)) •
    ((-(bendKappa1 n0 n1 n2 m2e m2f)) • bendTildeT n0 n1 n2
      + cross (unitTangent n1 n2) (bendTildeD2 n0 n1 n2 m2e m2f))

/-- Dkappa1Df of gradEb_hessEb. -/
def bendDkappa1Df (n0 n1 n2 m2e m2f : Vec3) : Vec3 :=
  (1 / Vec3.norm (n2 - n1)) •
    ((-(bendKappa1 n0 n1 n2 m2e m2f)) • bendTildeT n0 n1 n2
      - cross (unitTangent n0 n1) (bendTildeD2 n0 n1 n2 m2e m2f))

/-- Dkappa2De of gradEb_hessEb. -/
def bendDkappa2De (n0 n1 n2 m1e m1f : Vec3) : Vec3 :=
  (1 / Vec3.norm (n1 - n0)) •
    ((-(bendKappa2 n0 n1 n2 m1e m1f)) • bendTildeT n0 n1 n2
      - cross (unitTangent n1 n2) (bendTildeD1 n0 n1 n2 m1e m1f))

/-- Dkappa2Df of gradEb_hessEb. -/
def bendDkappa2Df (n0 n1 n2 m1e m1f : Vec3) : Vec3 :=
  (1 / Vec3.norm (n2 - n1)) •
    ((-(bendKappa2 n0 n1 n2 m1e m1f)) • bendTildeT n0 n1 n2
      + cross (unitTangent n0 n1) (bendTildeD1 n0 n1 n2 m1e m1f))

/-- Assembly of an 11-vector from the three nodal 3-vectors (slots 0-2, 4-6,
8-10) and the two twist-angle entries (slots 3 and 7), following the numpy
slice assignments of DER.py. -/
def assemble11v (g0 g1 g2 : Vec3) (ge gf : ℝ) : ℕ → ℝ := fun i =>
  if i < 3 then g0.get i
  else if i = 3 then ge
  else if i < 7 then g1.get (i - 4)
  else if i = 7 then gf
  else if i < 11 then g2.get (i - 8)
  else 0

/-- Column 1 of gradKappa of gradEb_hessEb. -/
def bendGradKappa1 (n0 n1 n2 m1e m2e m1f m2f : Vec3) : ℕ → ℝ :=
  assemble11v (-(bendDkappa1De n0 n1 n2 m2e m2f))
    (bendDkappa1De n0 n1 n2 m2e m2f - bendDkappa1Df n0 n1 n2 m2e m2f)
    (bendDkappa1Df n0 n1 n2 m2e m2f)
    (-(0.5) * dot (bendKb n0 n1 n2) m1e)
    (-(0.5) * dot (bendKb n0 n1 n2) m1f)

/-- Column 2 of gradKappa of gradEb_hessEb. -/
def bendGradKappa2 (n0 n1 n2 m1e m2e m1f m2f : Vec3) : ℕ → ℝ :=
  assemble11v (-(bendDkappa2De n0 n1 n2 m1e m1f))
    (bendDkappa2De n0 n1 n2 m1e m1f - bendDkappa2Df n0 n1 n2 m1e m1f)
    (bendDkappa2Df n0 n1 n2 m1e m1f)
    (-(0.5) * dot (bendKb n0 n1 n2) m2e)
    (-(0.5) * dot (bendKb n0 n1 n2) m2f)

/-- D2kappa1De2 of gradEb_hessEb (Panetta 2019 variant). -/
def bendD2kappa1De2 (n0 n1 n2 m2e m2f : Vec3) : Mat :=
  (1 / Vec3.norm (n1 - n0) ^ 2) •
      ((2 * bendKappa1 n0 n1 n2 m2e m2f) •
          outer (bendTildeT n0 n1 n2) (bendTildeT n0 n1 n2)
        - outer (cross (unitTangent n1 n2) (bendTildeD2 n0 n1 n2 m2e m2f))
            (bendTildeT n0 n1 n2)
        - mtrans (outer (cross (unitTangent n1 n2) (bendTildeD2 n0 n1 n2 m2e m2f))
            (bendTildeT n0 n1 n2)))
    - (bendKappa1 n0 n1 n2 m2e m2f / (bendChi n0 n1 n2 * Vec3.norm (n1 - n0) ^ 2)) •
        (Id3 - outer (unitTangent n0 n1) (unitTangent n0 n1))
    + (1 / (2 * Vec3.norm (n1 - n0) ^ 2)) • outer (bendKb n0 n1 n2) m2e

/-- D2kappa1Df2 of gradEb_hessEb (Panetta 2019 variant). -/
def bendD2kappa1Df2 (n0 n1 n2 m2e m2f : Vec3) : Mat :=
  (1 / Vec3.norm (n2 - n1) ^ 2) •
      ((2 * bendKappa1 n0 n1 n2 m2e m2f) •
          outer (bendTildeT n0 n1 n2) (bendTildeT n0 n1 n2)
        + outer (cross (unitTangent n0 n1) (bendTildeD2 n0 n1 n2 m2e m2f))
            (bendTildeT n0 n1 n2)
        + mtrans (outer (cross (unitTangent n0 n1) (bendTildeD2 n0 n1 n2 m2e m2f))
            (bendTildeT n0 n1 n2)))
    - (bendKappa1 n0 n1 n2 m2e m2f / (bendChi n0 n1 n2 * Vec3.norm (n2 - n1) ^ 2)) •
        (Id3 - outer (unitTangent n1 n2) (unitTangent n1 n2))
    + (1 / (2 * Vec3.norm (n2 - n1) ^ 2)) • outer (bendKb n0 n1 n2) m2f

/-- D2kappa1DfDe of gradEb_hessEb. -/
def bendD2kappa1DfDe (n0 n1 n2 m2e m2f : Vec3) : Mat :=
  (-(bendKappa1 n0 n1 n2 m2e m2f
      / (bendChi n0 n1 n2 * Vec3.norm (n1 - n0) * Vec3.norm (n2 - n1)))) •
      (Id3 + outer (unitTangent n0 n1) (unitTangent n1 n2))
    + (1 / (Vec3.norm (n1 - n0) * Vec3.norm (n2 - n1))) •
      ((2 * bendKappa1 n0 n1 n2 m2e m2f) •
          outer (bendTildeT n0 n1 n2) (bendTildeT n0 n1 n2)
        - outer (cross (unitTangent n1 n2) (bendTildeD2 n0 n1 n2 m2e m2f))
            (bendTildeT n0 n1 n2)
        + mtrans (outer (cross (unitTangent n0 n1) (bendTildeD2 n0 n1 n2 m2e m2f))
            (bendTildeT n0 n1 n2))
        - crossMat (bendTildeD2 n0 n1 n2 m2e m2f))

/-- D2kappa2De2 of gradEb_hessEb (Panetta 2019 variant). -/
def bendD2kappa2De2 (n0 n1 n2 m1e m1f : Vec3) : Mat :=
  (1 / Vec3.norm (n1 - n0) ^ 2) •
      ((2 * bendKappa2 n0 n1 n2 m1e m1f) •
          outer (bendTildeT n0 n1 n2) (bendTildeT n0 n1 n2)
        + outer (cross (unitTangent n1 n2) (bendTildeD1 n0 n1 n2 m1e m1f))
            (bendTildeT n0 n1 n2)
        + mtrans (outer (cross (unitTangent n1 n2) (bendTildeD1 n0 n1 n2 m1e m1f))
            (bendTildeT n0 n1 n2)))
    - (bendKappa2 n0 n1 n2 m1e m1f / (bendChi n0 n1 n2 * Vec3.norm (n1 - n0) ^ 2)) •
        (Id3 - outer (unitTangent n0 n1) (unitTangent n0 n1))
    - (1 / (2 * Vec3.norm (n1 - n0) ^ 2)) • outer (bendKb n0 n1 n2) m1e

/-- D2kappa2Df2 of gradEb_hessEb (Panetta 2019 variant). -/
def bendD2kappa2Df2 (n0 n1 n2 m1e m1f : Vec3) : Mat :=
  (1 / Vec3.norm (n2 - n1) ^ 2) •
      ((2 * bendKappa2 n0 n1 n2 m1e m1f) •
          outer (bendTildeT n0 n1 n2) (bendTildeT n0 n1 n2)
        - outer (cross (unitTangent n0 n1) (bendTildeD1 n0 n1 n2 m1e m1f))
            (bendTildeT n0 n1 n2)
        - mtrans (outer (cross (unitTangent n0 n1) (bendTildeD1 n0 n1 n2 m1e m1f))
            (bendTildeT n0 n1 n2)))
    - (bendKappa2 n0 n1 n2 m1e m1f / (bendChi n0 n1 n2 * Vec3.norm (n2 - n1) ^ 2)) •
        (Id3 - outer (unitTangent n1 n2) (unitTangent n1 n2))
    - (1 / (2 * Vec3.norm (n2 - n1) ^ 2)) • outer (bendKb n0 n1 n2) m1f

/-- D2kappa2DfDe of gradEb_hessEb. -/
def bendD2kappa2DfDe (n0 n1 n2 m1e m1f : Vec3) : Mat :=
  (-(bendKappa2 n0 n1 n2 m1e m1f
      / (bendChi n0 n1 n2 * Vec3.norm (n1 - n0) * Vec3.norm (n2 - n1)))) •
      (Id3 + outer (unitTangent n0 n1) (unitTangent n1 n2))
    + (1 / (Vec3.norm (n1 - n0) * Vec3.norm (n2 - n1))) •
      ((2 * bendKappa2 n0 n1 n2 m1e m1f) •
          outer (bendTildeT n0 n1 n2) (bendTildeT n0 n1 n2)
        + outer (cross (unitTangent n1 n2) (bendTildeD1 n0 n1 n2 m1e m1f))
            (bendTildeT n0 n1 n2)
        - mtrans (outer (cross (unitTangent n0 n1) (bendTildeD1 n0 n1 n2 m1e m1f))
            (bendTildeT n0 n1 n2))
        + crossMat (bendTildeD1 n0 n1 n2 m1e m1f))

/-- D2kappa1DeDthetae of gradEb_hessEb. -/
def bendD2kappa1DeDthetae (n0 n1 n2 m1e : Vec3) : Vec3 :=
  (1 / Vec3.norm (n1 - n0)) •
    ((0.5 * dot (bendKb n0 n1 n2) m1e) • bendTildeT n0 n1 n2
      - (1 / bendChi n0 n1 n2) • cross (unitTangent n1 n2) m1e)

/-- D2kappa1DeDthetaf of gradEb_hessEb. -/
def bendD2kappa1DeDthetaf (n0 n1 n2 m1f : Vec3) : Vec3 :=
  (1 / Vec3.norm (n1 - n0)) •
    ((0.5 * dot (bendKb n0 n1 n2) m1f) • bendTildeT n0 n1 n2
      - (1 / bendChi n0 n1 n2) • cross (unitTangent n1 n2) m1f)

/-- D2kappa1DfDthetae of gradEb_hessEb. -/
def bendD2kappa1DfDthetae (n0 n1 n2 m1e : Vec3) : Vec3 :=
  (1 / Vec3.norm (n2 - n1)) •
    ((0.5 * dot (bendKb n0 n1 n2) m1e) • bendTildeT n0 n1 n2
      + (1 / bendChi n0 n1 n2) • cross (unitTangent n0 n1) m1e)

/-- D2kappa1DfDthetaf of gradEb_hessEb. -/
def bendD2kappa1DfDthetaf (n0 n1 n2 m1f : Vec3) : Vec3 :=
  (1 / Vec3.norm (n2 - n1)) •
    ((0.5 * dot (bendKb n0 n1 n2) m1f) • bendTildeT n0 n1 n2
      + (1 / bendChi n0 n1 n2) • cross (unitTangent n0 n1) m1f)

/-- D2kappa2DeDthetae of gradEb_hessEb. -/
def bendD2kappa2DeDthetae (n0 n1 n2 m2e : Vec3) : Vec3 :=
  (1 / Vec3.norm (n1 - n0)) •
    ((0.5 * dot (bendKb n0 n1 n2) m2e) • bendTildeT n0 n1 n2
      - (1 / bendChi n0 n1 n2) • cross (unitTangent n1 n2) m2e)

/-- D2kappa2DeDthetaf of gradEb_hessEb. -/
def bendD2kappa2DeDthetaf (n0 n1 n2 m2f : Vec3) : Vec3 :=
  (1 / Vec3.norm (n1 - n0)) •
    ((0.5 * dot (bendKb n0 n1 n2) m2f) • bendTildeT n0 n1 n2
      - (1 / bendChi n0 n1 n2) • cross (unitTangent n1 n2) m2f)

/-- D2kappa2DfDthetae of gradEb_hessEb. -/
def bendD2kappa2DfDthetae (n0 n1 n2 m2e : Vec3) : Vec3 :=
  (1 / Vec3.norm (n2 - n1)) •
    ((0.5 * dot (bendKb n0 n1 n2) m2e) • bendTildeT n0 n1 n2
      + (1 / bendChi n0 n1 n2) • cross (unitTangent n0 n1) m2e)

/-- D2kappa2DfDthetaf of gradEb_hessEb. -/
def bendD2kappa2DfDthetaf (n0 n1 n2 m2f : Vec3) : Vec3 :=
  (1 / Vec3.norm (n2 - n1)) •
    ((0.5 * dot (bendKb n0 n1 n2) m2f) • bendTildeT n0 n1 n2
      + (1 / bendChi n0 n1 n2) • cross (unitTangent n0 n1) m2f)

/-- Assembly of an 11x11 matrix from nine 3x3 position blocks, the two
twist-column 3-vector triples (mirrored into the twist rows, exactly as the
transposed slice assignments of DER.py do), and the two diagonal
twist-twist entries; the (3,7) and (7,3) entries are never assigned and
remain 0. -/
def assemble11 (B00 B01 B02 B10 B11 B12 B20 B21 B22 : Mat)
    (we0 we1 we2 wf0 wf1 wf2 : Vec3) (dee dff : ℝ) : Mat := fun i j =>
  if i < 3 then
    (if j < 3 then B00 i j
     else if j = 3 then we0.get i
     else if j < 7 then B01 i (j - 4)
     else if j = 7 then wf0.get i
     else if j < 11 then B02 i (j - 8)
     else 0)
  else if i = 3 then
    (if j < 3 then we0.get j
     else if j = 3 then dee
     else if j < 7 then we1.get (j - 4)
     else if j = 7 then 0
     else if j < 11 then we2.get (j - 8)
     else 0)
  else if i < 7 then
    (if j < 3 then B10 (i - 4) j
     else if j = 3 then we1.get (i - 4)
     else if j < 7 then B11 (i - 4) (j - 4)
     else if j = 7 then wf1.get (i - 4)
     else if j < 11 then B12 (i - 4) (j - 8)
     else 0)
  else if i = 7 then
    (if j < 3 then wf0.get j
     else if j = 3 then 0
     else if j < 7 then wf1.get (j - 4)
     else if j = 7 then dff
     else if j < 11 then wf2.get (j - 8)
     else 0)
  else if i < 11 then
    (if j < 3 then B20 (i - 8) j
     else if j = 3 then we2.get (i - 8)
     else if j < 7 then B21 (i - 8) (j - 4)
     else if j = 7 then wf2.get (i - 8)
     else if j < 11 then B22 (i - 8) (j - 8)
     else 0)
  else 0

/-- DDkappa1 of gradEb_hessEb (D2kappa1DeDf is the transpose of
D2kappa1DfDe, as in the source). -/
def bendDDkappa1 (n0 n1 n2 m1e m2e m1f m2f : Vec3) : Mat :=
  assemble11
    (bendD2kappa1De2 n0 n1 n2 m2e m2f)
    (-(bendD2kappa1De2 n0 n1 n2 m2e m2f) + bendD2kappa1DfDe n0 n1 n2 m2e m2f)
    (-(bendD2kappa1DfDe n0 n1 n2 m2e m2f))
    (-(bendD2kappa1De2 n0 n1 n2 m2e m2f) + mtrans (bendD2kappa1DfDe n0 n1 n2 m2e m2f))
    (bendD2kappa1De2 n0 n1 n2 m2e m2f - mtrans (bendD2kappa1DfDe n0 n1 n2 m2e m2f)
      - bendD2kappa1DfDe n0 n1 n2 m2e m2f + bendD2kappa1Df2 n0 n1 n2 m2e m2f)
    (bendD2kappa1DfDe n0 n1 n2 m2e m2f - bendD2kappa1Df2 n0 n1 n2 m2e m2f)
    (-(mtrans (bendD2kappa1DfDe n0 n1 n2 m2e m2f)))
    (mtrans (bendD2kappa1DfDe n0 n1 n2 m2e m2f) - bendD2kappa1Df2 n0 n1 n2 m2e m2f)
    (bendD2kappa1Df2 n0 n1 n2 m2e m2f)
    (-(bendD2kappa1DeDthetae n0 n1 n2 m1e))
    (bendD2kappa1DeDthetae n0 n1 n2 m1e - bendD2kappa1DfDthetae n0 n1 n2 m1e)
    (bendD2kappa1DfDthetae n0 n1 n2 m1e)
    (-(bendD2kappa1DeDthetaf n0 n1 n2 m1f))
    (bendD2kappa1DeDthetaf n0 n1 n2 m1f - bendD2kappa1DfDthetaf n0 n1 n2 m1f)
    (bendD2kappa1DfDthetaf n0 n1 n2 m1f)
    (-(0.5) * dot (bendKb n0 n1 n2) m2e)
    (-(0.5) * dot (bendKb n0 n1 n2) m2f)

/-- DDkappa2 of gradEb_hessEb. -/
def bendDDkappa2 (n0 n1 n2 m1e m2e m1f m2f : Vec3) : Mat :=
  assemble11
    (bendD2kappa2De2 n0 n1 n2 m1e m1f)
    (-(bendD2kappa2De2 n0 n1 n2 m1e m1f) + bendD2kappa2DfDe n0 n1 n2 m1e m1f)
    (-(bendD2kappa2DfDe n0 n1 n2 m1e m1f))
    (-(bendD2kappa2De2 n0 n1 n2 m1e m1f) + mtrans (bendD2kappa2DfDe n0 n1 n2 m1e m1f))
    (bendD2kappa2De2 n0 n1 n2 m1e m1f - mtrans (bendD2kappa2DfDe n0 n1 n2 m1e m1f)
      - bendD2kappa2DfDe n0 n1 n2 m1e m1f + bendD2kappa2Df2 n0 n1 n2 m1e m1f)
    (bendD2kappa2DfDe n0 n1 n2 m1e m1f - bendD2kappa2Df2 n0 n1 n2 m1e m1f)
    (-(mtrans (bendD2kappa2DfDe n0 n1 n2 m1e m1f)))
    (mtrans (bendD2kappa2DfDe n0 n1 n2 m1e m1f) - bendD2kappa2Df2 n0 n1 n2 m1e m1f)
    (bendD2kappa2Df2 n0 n1 n2 m1e m1f)
    (-(bendD2kappa2DeDthetae n0 n1 n2 m2e))
    (bendD2kappa2DeDthetae n0 n1 n2 m2e - bendD2kappa2DfDthetae n0 n1 n2 m2e)
    (bendD2kappa2DfDthetae n0 n1 n2 m2e)
    (-(bendD2kappa2DeDthetaf n0 n1 n2 m2f))
    (bendD2kappa2DeDthetaf n0 n1 n2 m2f - bendD2kappa2DfDthetaf n0 n1 n2 m2f)
    (bendD2kappa2DfDthetaf n0 n1 n2 m2f)
    (0.5 * dot (bendKb n0 n1 n2) m1e)
    (0.5 * dot (bendKb n0 n1 n2) m1f)

/-- The 11-entry bending gradient dF of gradEb_hessEb: the two curvature
gradients weighted by stiffness over Voronoi length times the curvature
deviation from kappaBar = (kb1, kb2). -/
def gradEb_dF (n0 n1 n2 m1e m2e m1f m2f : Vec3) (kb1 kb2 lk EI1 EI2 : ℝ) :
    ℕ → ℝ := fun i =>
  EI1 / lk * (bendKappa1 n0 n1 n2 m2e m2f - kb1)
      * bendGradKappa1 n0 n1 n2 m1e m2e m1f m2f i
    + EI2 / lk * (bendKappa2 n0 n1 n2 m1e m1f - kb2)
      * bendGradKappa2 n0 n1 n2 m1e m2e m1f m2f i

/-- The 11x11 bending Hessian dJ of gradEb_hessEb: the curvature Hessians
weighted by the energy gradient plus the stiffness-weighted outer products
of the curvature gradients. -/
def gradEb_dJ (n0 n1 n2 m1e m2e m1f m2f : Vec3) (kb1 kb2 lk EI1 EI2 : ℝ) :
    Mat := fun i j =>
  EI1 / lk * (bendKappa1 n0 n1 n2 m2e m2f - kb1)
      * bendDDkappa1 n0 n1 n2 m1e m2e m1f m2f i j
    + EI2 / lk * (bendKappa2 n0 n1 n2 m1e m1f - kb2)
      * bendDDkappa2 n0 n1 n2 m1e m2e m1f m2f i j
    + EI1 / lk * (bendGradKappa1 n0 n1 n2 m1e m2e m1f m2f i
        * bendGradKappa1 n0 n1 n2 m1e m2e m1f m2f j)
    + EI2 / lk * (bendGradKappa2 n0 n1 n2 m1e m2e m1f m2f i
        * bendGradKappa2 n0 n1 n2 m1e m2e m1f m2f j)

/-! Twisting kernel gradEt_hessEt of DER.py (Panetta 2019 formulation). -/

/-- gradTwist of gradEt_hessEt: -kb/(2|ee|) on the first node, kb/(2|ef|)
on the third, minus their sum on the middle node, -1 and 1 on the two
twist angles. -/
def gradTwist (n0 n1 n2 : Vec3) : ℕ → ℝ :=
  assemble11v ((-(0.5) / Vec3.norm (n1 - n0)) • bendKb n0 n1 n2)
    (-((-(0.5) / Vec3.norm (n1 - n0)) • bendKb n0 n1 n2
        + (0.5 / Vec3.norm (n2 - n1)) • bendKb n0 n1 n2))
    ((0.5 / Vec3.norm (n2 - n1)) • bendKb n0 n1 n2)
    (-1) 1

/-- D2mDe2 of gradEt_hessEt (Panetta 2019). -/
def twistD2mDe2 (n0 n1 n2 : Vec3) : Mat :=
  (-(0.5) / Vec3.norm (n1 - n0) ^ 2) •
    (outer (bendKb n0 n1 n2) (unitTangent n0 n1 + bendTildeT n0 n1 n2)
      + (2 / bendChi n0 n1 n2) • crossMat (unitTangent n1 n2))

/-- D2mDf2 of gradEt_hessEt (Panetta 2019). -/
def twistD2mDf2 (n0 n1 n2 : Vec3) : Mat :=
  (-(0.5) / Vec3.norm (n2 - n1) ^ 2) •
    (outer (bendKb n0 n1 n2) (unitTangent n1 n2 + bendTildeT n0 n1 n2)
      - (2 / bendChi n0 n1 n2) • crossMat (unitTangent n0 n1))

/-- D2mDfDe of gradEt_hessEt. -/
def twistD2mDfDe (n0 n1 n2 : Vec3) : Mat :=
  (0.5 / (Vec3.norm (n1 - n0) * Vec3.norm (n2 - n1))) •
    ((2 / bendChi n0 n1 n2) • crossMat (unitTangent n0 n1)
      - outer (bendKb n0 n1 n2) (bendTildeT n0 n1 n2))

/-- D2mDeDf of gradEt_hessEt. -/
def twistD2mDeDf (n0 n1 n2 : Vec3) : Mat :=
  (0.5 / (Vec3.norm (n1 - n0) * Vec3.norm (n2 - n1))) •
    ((-(2 / bendChi n0 n1 n2)) • crossMat (unitTangent n1 n2)
      - outer (bendKb n0 n1 n2) (bendTildeT n0 n1 n2))

/-- DDtwist of gradEt_hessEt; the twist-angle rows and columns are never
assigned and remain 0. -/
def twistDDtwist (n0 n1 n2 : Vec3) : Mat :=
  assemble11
    (twistD2mDe2 n0 n1 n2)
    (-(twistD2mDe2 n0 n1 n2) + twistD2mDfDe n0 n1 n2)
    (-(twistD2mDfDe n0 n1 n2))
    (-(twistD2mDe2 n0 n1 n2) + twistD2mDeDf n0 n1 n2)
    (twistD2mDe2 n0 n1 n2 - (twistD2mDeDf n0 n1 n2 + twistD2mDfDe n0 n1 n2)
      + twistD2mDf2 n0 n1 n2)
    (twistD2mDfDe n0 n1 n2 - twistD2mDf2 n0 n1 n2)
    (-(twistD2mDeDf n0 n1 n2))
    (twistD2mDeDf n0 n1 n2 - twistD2mDf2 n0 n1 n2)
    (twistD2mDf2 n0 n1 n2)
    0 0 0 0 0 0 0 0

/-- The 11-entry twisting gradient dF of gradEt_hessEt. -/
def gradEt_dF (n0 n1 n2 : Vec3) (thetaE thetaF refTwistN twistBarN lk GJ : ℝ) :
    ℕ → ℝ := fun i =>
  GJ / lk * (thetaF - thetaE + refTwistN - twistBarN) * gradTwist n0 n1 n2 i

/-- The 11x11 twisting Hessian dJ of gradEt_hessEt. -/
def gradEt_dJ (n0 n1 n2 : Vec3) (thetaE thetaF refTwistN twistBarN lk GJ : ℝ) :
    Mat := fun i j =>
  GJ / lk * (thetaF - thetaE + refTwistN - twistBarN) * twistDDtwist n0 n1 n2 i j
    + GJ / lk * (gradTwist n0 n1 n2 i * gradTwist n0 n1 n2 j)

set_option maxHeartbeats 4000000 in
/-- Counterexample to C1: at the valid configuration with nodes (0,0,0),
(1,0,0), (1,1,0), orthonormal material directors m1e = (0,1,0),
m2e = (0,0,1), m1f = (0,0,1), m2f = (1,0,0), zero natural curvature, unit
Voronoi length and unit stiffnesses (and twist angles 0 and 1 for the
twisting kernel), both returned 11x11 Hessians differ from their
transposes at the entry pair (1,2) versus (2,1). -/
theorem hessians_not_symmetric_counterexample :
    gradEb_dJ ⟨0, 0, 0⟩ ⟨1, 0, 0⟩ ⟨1, 1, 0⟩ ⟨0, 1, 0⟩ ⟨0, 0, 1⟩ ⟨0, 0, 1⟩
        ⟨1, 0, 0⟩ 0 0 1 1 1 1 2
      ≠ gradEb_dJ ⟨0, 0, 0⟩ ⟨1, 0, 0⟩ ⟨1, 1, 0⟩ ⟨0, 1, 0⟩ ⟨0, 0, 1⟩ ⟨0, 0, 1⟩
        ⟨1, 0, 0⟩ 0 0 1 1 1 2 1
  ∧ gradEt_dJ ⟨0, 0, 0⟩ ⟨1, 0, 0⟩ ⟨1, 1, 0⟩ 0 1 0 0 1 1 1 2
      ≠ gradEt_dJ ⟨0, 0, 0⟩ ⟨1, 0, 0⟩ ⟨1, 1, 0⟩ 0 1 0 0 1 1 2 1 := by
  constructor
  · norm_num [gradEb_dJ, bendDDkappa1, bendDDkappa2, assemble11,
      bendD2kappa1De2, bendD2kappa2De2, bendGradKappa1, bendGradKappa2,
      assemble11v, bendDkappa1De, bendDkappa1Df, bendDkappa2De, bendDkappa2Df,
      bendKappa1, bendKappa2, bendKb, bendChi, bendTildeT, bendTildeD1,
      bendTildeD2, unitTangent, outer, mtrans, crossMat, Id3,
      Vec3.dot, Vec3.cross, Vec3.norm, Real.sqrt_one,
      Pi.add_apply, Pi.sub_apply, Pi.neg_apply, Pi.smul_apply, smul_eq_mul]
  · norm_num [gradEt_dJ, twistDDtwist, assemble11, twistD2mDe2,
      gradTwist, assemble11v, bendKb, bendChi, bendTildeT, unitTangent,
      outer, mtrans, crossMat, Id3, Vec3.dot, Vec3.cross, Vec3.norm,
      Real.sqrt_one, Pi.add_apply, Pi.sub_apply, Pi.neg_apply,
      Pi.smul_apply, smul_eq_mul]

/-- C1 (amended): both returned Hessians are symmetric at every
configuration whose curvature equals the natural curvature kappaBar and
whose integrated twist theta_f - theta_e + refTwist - twistBar is zero
(there the Hessians reduce to sums of outer products); at general valid
inputs symmetry can fail, as the counterexample shows. -/
theorem hessians_symmetric_at_natural_config
    (n0 n1 n2 m1e m2e m1f m2f : Vec3)
    (kb1 kb2 lk EI1 EI2 thetaE thetaF refTwistN twistBarN GJ : ℝ)
    (hb : computekappa n0 n1 n2 m1e m2e m1f m2f = (kb1, kb2))
    (ht : thetaF - thetaE + refTwistN - twistBarN = 0) :
    (∀ i j, gradEb_dJ n0 n1 n2 m1e m2e m1f m2f kb1 kb2 lk EI1 EI2 i j
        = gradEb_dJ n0 n1 n2 m1e m2e m1f m2f kb1 kb2 lk EI1 EI2 j i)
  ∧ (∀ i j, gradEt_dJ n0 n1 n2 thetaE thetaF refTwistN twistBarN lk GJ i j
        = gradEt_dJ n0 n1 n2 thetaE thetaF refTwistN twistBarN lk GJ j i) := by
  have hb1 : bendKappa1 n0 n1 n2 m2e m2f = kb1 := congrArg Prod.fst hb
  have hb2 : bendKappa2 n0 n1 n2 m1e m1f = kb2 := congrArg Prod.snd hb
  have hz1 : bendKappa1 n0 n1 n2 m2e m2f - kb1 = 0 := by
    rw [hb1]
    ring
  have hz2 : bendKappa2 n0 n1 n2 m1e m1f - kb2 = 0 := by
    rw [hb2]
    ring
  constructor
  · intro i j
    unfold gradEb_dJ
    rw [hz1, hz2]
    ring
  · intro i j
    unfold gradEt_dJ
    rw [ht]
    ring

/-- Witness for the amended C1 at the bent configuration of the
counterexample, with the natural curvature set to the computed curvature
(1, -1) and all twist quantities zero. -/
theorem hessians_symmetric_at_natural_config_witness :
    (∀ i j, gradEb_dJ ⟨0, 0, 0⟩ ⟨1, 0, 0⟩ ⟨1, 1, 0⟩ ⟨0, 1, 0⟩ ⟨0, 0, 1⟩
        ⟨0, 0, 1⟩ ⟨1, 0, 0⟩ 1 (-1) 1 1 1 i j
      = gradEb_dJ ⟨0, 0, 0⟩ ⟨1, 0, 0⟩ ⟨1, 1, 0⟩ ⟨0, 1, 0⟩ ⟨0, 0, 1⟩
        ⟨0, 0, 1⟩ ⟨1, 0, 0⟩ 1 (-1) 1 1 1 j i)
  ∧ (∀ i j, gradEt_dJ ⟨0, 0, 0⟩ ⟨1, 0, 0⟩ ⟨1, 1, 0⟩ 0 0 0 0 1 1 i j
      = gradEt_dJ ⟨0, 0, 0⟩ ⟨1, 0, 0⟩ ⟨1, 1, 0⟩ 0 0 0 0 1 1 j i) := by
  apply hessians_symmetric_at_natural_config
  · norm_num [computekappa, bendKappa1, bendKappa2, bendKb, bendChi,
      unitTangent, Vec3.dot, Vec3.cross, Vec3.norm, Real.sqrt_one,
      Prod.mk.injEq]
  · norm_num

/-! Remaining frame kinematics and global assembly of DER.py. -/

/-- computeReferenceTwist of DER.py: transport u1, rotate by the guess,
and add the residual signed angle to the guess. -/
def computeReferenceTwist (u1 u2 t1 t2 : Vec3) (rt : ℝ) : ℝ :=
  rt + signedAngle (rotateAxisAngle (parallel_transport u1 t1 t2) t2 rt) u2 t2

/-- getRefTwist of DER.py: update the reference twist of every interior
node 1 <= c < ne from the director pair of the adjacent edges; other
entries are left unchanged. -/
def getRefTwistF (a1 : ℕ → Vec3) (tng : ℕ → Vec3) (rt : ℕ → ℝ) (ne : ℕ) :
    ℕ → ℝ := fun c =>
  if 1 ≤ c ∧ c < ne then
    computeReferenceTwist (a1 (c - 1)) (a1 c) (tng (c - 1)) (tng c) (rt c)
  else rt c

/-- First material director of computeMaterialFrame of DER.py. -/
def computeMaterial1 (a1 a2 : ℕ → Vec3) (th : ℕ → ℝ) (c : ℕ) : Vec3 :=
  Real.cos (th c) • a1 c + Real.sin (th c) • a2 c

/-- Second material director of computeMaterialFrame of DER.py. -/
def computeMaterial2 (a1 a2 : ℕ → Vec3) (th : ℕ → ℝ) (c : ℕ) : Vec3 :=
  (-Real.sin (th c)) • a1 c + Real.cos (th c) • a2 c

/-- The local slot (0..10) of the global DOF index i inside the 11-entry
index range 4c-4 .. 4c+6 of interior node c used by getFb and getFt of
DER.py, or none when i is outside that range. -/
def bLoc (c i : ℕ) : Option ℕ :=
  if 4 * c - 4 ≤ i ∧ i < 4 * c + 7 then some (i - (4 * c - 4)) else none

/-- The global bending force of getFb: the negated scatter-sum of the local
bending gradients over the interior nodes (EI2 defaults to EI as in the
source). -/
def getFb_F (q : ℕ → ℝ) (m1 m2 : ℕ → Vec3) (kappaBar : ℕ → ℝ × ℝ) (EI : ℝ)
    (voronoiRefLen : ℕ → ℝ) (nv : ℕ) : ℕ → ℝ := fun i =>
  -(∑ c in Finset.Ico 1 (nv - 1),
      match bLoc c i with
      | some k =>
          gradEb_dF (nodePos q (c - 1)) (nodePos q c) (nodePos q (c + 1))
            (m1 (c - 1)) (m2 (c - 1)) (m1 c) (m2 c)
            (kappaBar c).1 (kappaBar c).2 (voronoiRefLen c) EI EI k
      | none => 0)

/-- The global bending Jacobian of getFb. -/
def getFb_J (q : ℕ → ℝ) (m1 m2 : ℕ → Vec3) (kappaBar : ℕ → ℝ × ℝ) (EI : ℝ)
    (voronoiRefLen : ℕ → ℝ) (nv : ℕ) : Mat := fun i j =>
  -(∑ c in Finset.Ico 1 (nv - 1),
      match bLoc c i, bLoc c j with
      | some k, some l =>
          gradEb_dJ (nodePos q (c - 1)) (nodePos q c) (nodePos q (c + 1))
            (m1 (c - 1)) (m2 (c - 1)) (m1 c) (m2 c)
            (kappaBar c).1 (kappaBar c).2 (voronoiRefLen c) EI EI k l
      | _, _ => 0)

/-- The global twisting force of getFt: the negated scatter-sum of the
local twisting gradients over the interior nodes, with the twist angles
read from the DOF vector. -/
def getFt_F (q : ℕ → ℝ) (refTwistA twistBarA : ℕ → ℝ) (GJ : ℝ)
    (voronoiRefLen : ℕ → ℝ) (nv : ℕ) : ℕ → ℝ := fun i =>
  -(∑ c in Finset.Ico 1 (nv - 1),
      match bLoc c i with
      | some k =>
          gradEt_dF (nodePos q (c - 1)) (nodePos q c) (nodePos q (c + 1))
            (q (4 * c - 1)) (q (4 * c + 3)) (refTwistA c) (twistBarA c)
            (voronoiRefLen c) GJ k
      | none => 0)

/-- The global twisting Jacobian of getFt. -/
def getFt_J (q : ℕ → ℝ) (refTwistA twistBarA : ℕ → ℝ) (GJ : ℝ)
    (voronoiRefLen : ℕ → ℝ) (nv : ℕ) : Mat := fun i j =>
  -(∑ c in Finset.Ico 1 (nv - 1),
      match bLoc c i, bLoc c j with
      | some k, some l =>
          gradEt_dJ (nodePos q (c - 1)) (nodePos q c) (nodePos q (c + 1))
            (q (4 * c - 1)) (q (4 * c + 3)) (refTwistA c) (twistBarA c)
            (voronoiRefLen c) GJ k l
      | _, _ => 0)

/-! The implicit-Euler Newton solver objfun of DER.py.  The mutable loop
state is the pair (q, refTwist): getRefTwist overwrites the refTwist array
in place, so the updated reference twist of one iteration is the guess of
the next.  One loop body is decomposed into the named quantities below,
in the order of the source. -/

/-- The argument record of objfun. -/
structure ObjfunArgs where
  nv : ℕ
  qGuess : ℕ → ℝ
  q0 : ℕ → ℝ
  u : ℕ → ℝ
  a1 : ℕ → Vec3
  a2 : ℕ → Vec3
  freeIndex : List ℕ
  dt : ℝ
  tol : ℝ
  refTwist : ℕ → ℝ
  massVector : ℕ → ℝ
  mMat : Mat
  EA : ℝ
  refLen : ℕ → ℝ
  EI : ℝ
  GJ : ℝ
  voronoiRefLen : ℕ → ℝ
  kappaBar : ℕ → ℝ × ℝ
  twistBar : ℕ → ℝ
  Fg : ℕ → ℝ

/-- a1Iterate: the time-parallel reference director of the current guess. -/
def objfunA1It (P : ObjfunArgs) (q : ℕ → ℝ) : ℕ → Vec3 :=
  timeParallelA1 P.a1 P.q0 q

/-- a2Iterate. -/
def objfunA2It (P : ObjfunArgs) (q : ℕ → ℝ) : ℕ → Vec3 :=
  timeParallelA2 P.a1 P.q0 q

/-- refTwist_iterate: getRefTwist applied to the iterate frame. -/
def objfunRefTwistIt (P : ObjfunArgs) (q rt : ℕ → ℝ) : ℕ → ℝ :=
  getRefTwistF (objfunA1It P q) (computeTangent q) rt (P.nv - 1)

/-- theta = q[3::4]. -/
def objfunTheta (q : ℕ → ℝ) : ℕ → ℝ := fun c => q (4 * c + 3)

/-- m1Iterate. -/
def objfunM1 (P : ObjfunArgs) (q : ℕ → ℝ) : ℕ → Vec3 :=
  computeMaterial1 (objfunA1It P q) (objfunA2It P q) (objfunTheta q)

/-- m2Iterate. -/
def objfunM2 (P : ObjfunArgs) (q : ℕ → ℝ) : ℕ → Vec3 :=
  computeMaterial2 (objfunA1It P q) (objfunA2It P q) (objfunTheta q)

/-- The Newton residual f = massVector/dt * ((q - q0)/dt - u) - Forces with
Forces = Fb + Ft + Fs + Fg. -/
def objfunF (P : ObjfunArgs) (q rt : ℕ → ℝ) : ℕ → ℝ := fun i =>
  P.massVector i / P.dt * ((q i - P.q0 i) / P.dt - P.u i)
    - (getFb_F q (objfunM1 P q) (objfunM2 P q) P.kappaBar P.EI
         P.voronoiRefLen P.nv i
       + getFt_F q (objfunRefTwistIt P q rt) P.twistBar P.GJ
         P.voronoiRefLen P.nv i
       + getFs_F q P.EA P.refLen P.nv i + P.Fg i)

/-- The Newton matrix J = mMat/dt^2 - (Jb + Jt + Js). -/
def objfunJ (P : ObjfunArgs) (q rt : ℕ → ℝ) : Mat := fun i j =>
  P.mMat i j / P.dt ^ 2
    - (getFb_J q (objfunM1 P q) (objfunM2 P q) P.kappaBar P.EI
         P.voronoiRefLen P.nv i j
       + getFt_J q (objfunRefTwistIt P q rt) P.twistBar P.GJ
         P.voronoiRefLen P.nv i j
       + getFs_J q P.EA P.refLen P.nv i j)

/-- f restricted to the free DOFs, f[freeIndex]. -/
def objfunFFree (P : ObjfunArgs) (q rt : ℕ → ℝ) :
    Fin P.freeIndex.length → ℝ := fun k => objfunF P q rt (P.freeIndex.get k)

/-- J restricted to the free DOFs, J[ix_(freeIndex, freeIndex)]. -/
def objfunJFree (P : ObjfunArgs) (q rt : ℕ → ℝ) :
    Matrix (Fin P.freeIndex.length) (Fin P.freeIndex.length) ℝ :=
  Matrix.of fun k l => objfunJ P q rt (P.freeIndex.get k) (P.freeIndex.get l)

/-- The Newton correction dq_free, modelling np.linalg.solve(J_free, f_free)
by the nonsingular matrix inverse. -/
def objfunDqFree (P : ObjfunArgs) (q rt : ℕ → ℝ) :
    Fin P.freeIndex.length → ℝ :=
  (objfunJFree P q rt)⁻¹.mulVec (objfunFFree P q rt)

/-- The updated configuration: q[freeIndex] -= dq_free, every other entry
unchanged. -/
def objfunQNew (P : ObjfunArgs) (q rt : ℕ → ℝ) : ℕ → ℝ := fun i =>
  if h : i ∈ P.freeIndex then
    q i - objfunDqFree P q rt
      ⟨P.freeIndex.indexOf i, List.indexOf_lt_length.mpr h⟩
  else q i

/-- The convergence error of one iteration, sum of absolute residual
entries over the free DOFs. -/
def objfunErrOf (P : ObjfunArgs) (q rt : ℕ → ℝ) : ℝ :=
  ∑ k : Fin P.freeIndex.length, |objfunFFree P q rt k|

/-- The loop state (q, refTwist) after n executions of the body of the
while loop of objfun, starting from (qGuess, refTwist). -/
def objfunState (P : ObjfunArgs) : ℕ → (ℕ → ℝ) × (ℕ → ℝ)
  | 0 => (P.qGuess, P.refTwist)
  | n + 1 =>
      (objfunQNew P (objfunState P n).1 (objfunState P n).2,
       objfunRefTwistIt P (objfunState P n).1 (objfunState P n).2)

/-- The error checked by the while condition before iteration n: the
initialization error = 10 * tol for n = 0, and thereafter the error
computed by the n-th body. -/
def objfunErr (P : ObjfunArgs) : ℕ → ℝ
  | 0 => 10 * P.tol
  | n + 1 => objfunErrOf P (objfunState P n).1 (objfunState P n).2

/-- objfun terminates and returns the configuration qf: after n >= 1 body
executions (the Python loop body must run at least once for the returned
a1Iterate to exist) every earlier error exceeded tol, the n-th error
dropped to tol or below, and qf is the n-th iterate. -/
def ObjfunReturnsQ (P : ObjfunArgs) (qf : ℕ → ℝ) : Prop :=
  ∃ n, 1 ≤ n ∧ objfunErr P n ≤ P.tol ∧ (∀ k, k < n → P.tol < objfunErr P k)
    ∧ qf = (objfunState P n).1

/-- C3: in every Newton iteration the residual is
massVector/dt * ((q - q0)/dt - u) minus the total force Fb + Ft + Fs + Fg,
the Jacobian is mMat/dt^2 minus the total force Jacobian, the restricted
system is solved for dq (so J_free dq = f_free whenever J_free is
nonsingular), and the correction is subtracted from the free entries of q
only. -/
theorem newton_iteration_structure (P : ObjfunArgs) (q rt : ℕ → ℝ) :
    (∀ i, objfunF P q rt i
        = P.massVector i / P.dt * ((q i - P.q0 i) / P.dt - P.u i)
          - (getFb_F q (objfunM1 P q) (objfunM2 P q) P.kappaBar P.EI
               P.voronoiRefLen P.nv i
             + getFt_F q (objfunRefTwistIt P q rt) P.twistBar P.GJ
               P.voronoiRefLen P.nv i
             + getFs_F q P.EA P.refLen P.nv i + P.Fg i))
  ∧ (∀ i j, objfunJ P q rt i j
        = P.mMat i j / P.dt ^ 2
          - (getFb_J q (objfunM1 P q) (objfunM2 P q) P.kappaBar P.EI
               P.voronoiRefLen P.nv i j
             + getFt_J q (objfunRefTwistIt P q rt) P.twistBar P.GJ
               P.voronoiRefLen P.nv i j
             + getFs_J q P.EA P.refLen P.nv i j))
  ∧ (∀ i, i ∉ P.freeIndex → objfunQNew P q rt i = q i)
  ∧ (∀ i, ∀ h : i ∈ P.freeIndex, objfunQNew P q rt i
        = q i - objfunDqFree P q rt
            ⟨P.freeIndex.indexOf i, List.indexOf_lt_length.mpr h⟩)
  ∧ (IsUnit (objfunJFree P q rt).det →
      (objfunJFree P q rt).mulVec (objfunDqFree P q rt)
        = objfunFFree P q rt) := by
  refine ⟨fun i => rfl, fun i j => rfl, ?_, ?_, ?_⟩
  · intro i hi
    unfold objfunQNew
    rw [dif_neg hi]
  · intro i h
    unfold objfunQNew
    rw [dif_pos h]
  · intro hdet
    unfold objfunDqFree
    rw [Matrix.mulVec_mulVec, Matrix.mul_nonsing_inv _ hdet, Matrix.one_mulVec]

/-- A concrete 2-node argument record: only the twist DOF 3 is free; all
DOF values are zero, every scalar parameter is 1 and the mass matrix is the
identity. -/
def cP3 : ObjfunArgs where
  nv := 2
  qGuess := fun _ => 0
  q0 := fun _ => 0
  u := fun _ => 0
  a1 := fun _ => 0
  a2 := fun _ => 0
  freeIndex := [3]
  dt := 1
  tol := 1
  refTwist := fun _ => 0
  massVector := fun _ => 1
  mMat := fun i j => if i = j then 1 else 0
  EA := 1
  refLen := fun _ => 1
  EI := 1
  GJ := 1
  voronoiRefLen := fun _ => 1
  kappaBar := fun _ => (0, 0)
  twistBar := fun _ => 0
  Fg := fun _ => 0

/-- Witness for C3 on cP3: the restricted system is the nonsingular 1x1
matrix (1), so the solved correction satisfies the linear system, and the
fixed DOF 5 is untouched by the update. -/
theorem newton_iteration_structure_witness :
    (objfunJFree cP3 (fun _ => 0) (fun _ => 0)).mulVec
        (objfunDqFree cP3 (fun _ => 0) (fun _ => 0))
      = objfunFFree cP3 (fun _ => 0) (fun _ => 0)
  ∧ objfunQNew cP3 (fun _ => 0) (fun _ => 0) 5 = (fun _ => (0:ℝ)) 5 := by
  have hval : objfunJ cP3 (fun _ => 0) (fun _ => 0) 3 3 = 1 := by
    unfold objfunJ getFb_J getFt_J getFs_J
    norm_num [cP3, sLoc, Finset.Ico_self, Finset.sum_range_succ,
      Finset.sum_range_zero]
  have hmat : objfunJFree cP3 (fun _ => 0) (fun _ => 0) = 1 := by
    ext k l
    rcases k with ⟨kv, hkv⟩
    rcases l with ⟨lv, hlv⟩
    have hkv1 : kv < 1 := hkv
    have hlv1 : lv < 1 := hlv
    have hkv0 : kv = 0 := by omega
    have hlv0 : lv = 0 := by omega
    subst hkv0
    subst hlv0
    show objfunJ cP3 (fun _ => 0) (fun _ => 0) 3 3 = _
    rw [hval]
    exact (Matrix.one_apply_eq _).symm
  have hdet : IsUnit (objfunJFree cP3 (fun _ => 0) (fun _ => 0)).det := by
    rw [hmat, Matrix.det_one]
    exact isUnit_one
  refine ⟨(newton_iteration_structure cP3 (fun _ => 0) (fun _ => 0)).2.2.2.2 hdet,
    (newton_iteration_structure cP3 (fun _ => 0) (fun _ => 0)).2.2.1 5 ?_⟩
  decide

/-- C4: objfun has no iteration cap; given a positive tolerance it returns
exactly when the sum of absolute free-DOF residuals of some iteration
drops to the tolerance or below, and when every iteration keeps that sum
above the tolerance, it never returns. -/
theorem objfun_termination_iff (P : ObjfunArgs) (htol : 0 < P.tol) :
    ((∃ qf, ObjfunReturnsQ P qf) ↔ ∃ n, 1 ≤ n ∧ objfunErr P n ≤ P.tol)
  ∧ ((∀ n, 1 ≤ n → P.tol < objfunErr P n) → ¬∃ qf, ObjfunReturnsQ P qf) := by
  constructor
  · constructor
    · rintro ⟨qf, n, hn1, hn2, -, -⟩
      exact ⟨n, hn1, hn2⟩
    · rintro ⟨n, hn1, hn2⟩
      classical
      have hex : ∃ m, 1 ≤ m ∧ objfunErr P m ≤ P.tol := ⟨n, hn1, hn2⟩
      obtain ⟨hm1, hm2⟩ := Nat.find_spec hex
      refine ⟨(objfunState P (Nat.find hex)).1, Nat.find hex, hm1, hm2, ?_, rfl⟩
      intro k hk
      rcases Nat.eq_zero_or_pos k with hk0 | hkpos
      · subst hk0
        show P.tol < 10 * P.tol
        linarith
      · by_contra hcon
        push_neg at hcon
        exact Nat.find_min hex hk ⟨hkpos, hcon⟩
  · rintro hall ⟨qf, n, hn1, hn2, -, -⟩
    exact absurd hn2 (not_le.mpr (hall n hn1))

/-- Witness for C4 at the concrete record cP3 (tolerance 1 > 0). -/
theorem objfun_termination_iff_witness :
    ((∃ qf, ObjfunReturnsQ cP3 qf) ↔ ∃ n, 1 ≤ n ∧ objfunErr cP3 n ≤ cP3.tol)
  ∧ ((∀ n, 1 ≤ n → cP3.tol < objfunErr cP3 n) → ¬∃ qf, ObjfunReturnsQ cP3 qf) :=
  objfun_termination_iff cP3 (by norm_num [cP3])

/-- C5: every terminating objfun call leaves every DOF outside freeIndex
exactly equal to the corresponding entry of the input guess. -/
theorem objfun_fixed_dofs_unchanged (P : ObjfunArgs) (qf : ℕ → ℝ)
    (h : ObjfunReturnsQ P qf) :
    ∀ i, i ∉ P.freeIndex → qf i = P.qGuess i := by
  obtain ⟨n, hn1, hn2, hn3, hqf⟩ := h
  subst hqf
  clear hn1 hn2 hn3
  intro i hi
  induction n with
  | zero => rfl
  | succ n ih =>
      show objfunQNew P (objfunState P n).1 (objfunState P n).2 i = P.qGuess i
      unfold objfunQNew
      rw [dif_neg hi]
      exact ih

/-- A concrete argument record with an empty free-index list, on which the
very first iteration has zero free residual and the loop stops at once. -/
def cP5 : ObjfunArgs where
  nv := 2
  qGuess := fun _ => 0
  q0 := fun _ => 0
  u := fun _ => 0
  a1 := fun _ => 0
  a2 := fun _ => 0
  freeIndex := []
  dt := 1
  tol := 1
  refTwist := fun _ => 0
  massVector := fun _ => 1
  mMat := fun i j => if i = j then 1 else 0
  EA := 1
  refLen := fun _ => 1
  EI := 1
  GJ := 1
  voronoiRefLen := fun _ => 1
  kappaBar := fun _ => (0, 0)
  twistBar := fun _ => 0
  Fg := fun _ => 0

/-- Witness for C5: on cP5 the call terminates after one iteration (its
free residual is an empty sum), and the fixed DOF 5 still holds the guess
value. -/
theorem objfun_fixed_dofs_unchanged_witness :
    ObjfunReturnsQ cP5 (objfunState cP5 1).1
  ∧ (objfunState cP5 1).1 5 = cP5.qGuess 5 := by
  have hret : ObjfunReturnsQ cP5 (objfunState cP5 1).1 := by
    refine ⟨1, le_refl 1, ?_, ?_, rfl⟩
    · show objfunErrOf cP5 (objfunState cP5 0).1 (objfunState cP5 0).2 ≤ cP5.tol
      unfold objfunErrOf
      rw [Finset.sum_eq_zero]
      · norm_num [cP5]
      · intro k hk
        exact absurd k.isLt (by norm_num [cP5])
    · intro k hk
      have hk0 : k = 0 := by omega
      subst hk0
      show cP5.tol < 10 * cP5.tol
      norm_num [cP5]
  exact ⟨hret, objfun_fixed_dofs_unchanged cP5 (objfunState cP5 1).1 hret 5
    (by decide)⟩

@[simp] lemma dot_zero_left (v : Vec3) : dot 0 v = 0 := by
  unfold Vec3.dot
  simp

@[simp] lemma dot_zero_right (v : Vec3) : dot v 0 = 0 := by
  unfold Vec3.dot
  simp

@[simp] lemma get_zero_vec (k : ℕ) : (0 : Vec3).get k = 0 := by
  match k with
  | 0 => rfl
  | 1 => rfl
  | 2 => rfl
  | n + 3 => rfl

lemma norm_smul_of_unit {t : Vec3} {r : ℝ} (hr : 0 ≤ r) (ht : dot t t = 1) :
    Vec3.norm (r • t) = r := by
  have hdd : dot (r • t) (r • t) = r ^ 2 := by
    rw [dot_smul_left, dot_smul_right, ht]
    ring
  have hdef : Vec3.norm (r • t) = Real.sqrt (dot (r • t) (r • t)) := rfl
  rw [hdef, hdd, Real.sqrt_sq hr]

lemma unitTangent_of_smul {a b t : Vec3} {r : ℝ} (hr : 0 < r)
    (ht : dot t t = 1) (hab : b - a = r • t) : unitTangent a b = t := by
  have hr0 : r ≠ 0 := ne_of_gt hr
  unfold unitTangent
  rw [hab, norm_smul_of_unit (le_of_lt hr) ht]
  ext <;> simp <;> exact mul_div_cancel_left₀ _ hr0

lemma bendKb_zero_of_parallel {n0 n1 n2 t : Vec3}
    (he : unitTangent n0 n1 = t) (hf : unitTangent n1 n2 = t) :
    bendKb n0 n1 n2 = 0 := by
  unfold bendKb
  rw [he, hf, cross_self]
  ext <;> simp

lemma gradEb_dF_of_zero_kb {n0 n1 n2 m1e m2e m1f m2f : Vec3} {lk EI1 EI2 : ℝ}
    (h1 : bendKappa1 n0 n1 n2 m2e m2f = 0)
    (h2 : bendKappa2 n0 n1 n2 m1e m1f = 0) :
    ∀ k, gradEb_dF n0 n1 n2 m1e m2e m1f m2f 0 0 lk EI1 EI2 k = 0 := by
  intro k
  unfold gradEb_dF
  rw [h1, h2]
  ring

lemma gradEt_dF_of_zero_twist {n0 n1 n2 : Vec3} {a b r s lk GJ : ℝ}
    (h : b - a + r - s = 0) : ∀ k, gradEt_dF n0 n1 n2 a b r s lk GJ k = 0 := by
  intro k
  unfold gradEt_dF
  rw [h]
  ring

lemma gradEs_dF_zero_of_natural {a b t : Vec3} {r EA : ℝ} (hr : 0 < r)
    (ht : dot t t = 1) (hab : b - a = r • t) :
    ∀ k, gradEs_dF a b r EA k = 0 := by
  have hnorm : Vec3.norm (b - a) = r := by
    rw [hab]
    exact norm_smul_of_unit (le_of_lt hr) ht
  have hunit : gradEs_dFunit a b r EA = 0 := by
    unfold gradEs_dFunit
    rw [hnorm, div_self (ne_of_gt hr)]
    ext <;> simp
  intro k
  unfold gradEs_dF
  rw [hunit]
  split_ifs <;> simp

lemma arctan2_zero_one : arctan2 0 1 = 0 := by
  unfold arctan2
  have h : (⟨1, 0⟩ : ℂ) = 1 := by
    apply Complex.ext <;> simp
  rw [h]
  exact Complex.arg_one

lemma signedAngle_self {u : Vec3} (n : Vec3) (hu : dot u u = 1) :
    signedAngle u u n = 0 := by
  unfold signedAngle
  simp only [cross_self, dot_zero_right, Vec3.norm_zero, hu]
  rw [if_neg (lt_irrefl 0)]
  exact arctan2_zero_one

/-- C2: for a straight rod (consecutive node differences are the reference
lengths times one common unit direction, all twist angles zero) with zero
natural curvature and twist, zero reference twist, a constant unit frame
director perpendicular to the rod, zero gravity, zero initial velocity,
guess equal to the old configuration and positive tolerance, objfun
terminates after its first iteration and returns the configuration q0
unchanged. -/
theorem straight_rod_one_step_fixed (P : ObjfunArgs) (t d : Vec3)
    (htol : 0 < P.tol)
    (ht : dot t t = 1)
    (hrefpos : ∀ c, c < P.nv - 1 → 0 < P.refLen c)
    (hstraight : ∀ c, c < P.nv - 1 →
      nodePos P.q0 (c + 1) - nodePos P.q0 c = P.refLen c • t)
    (hth : ∀ c, c < P.nv - 1 → P.q0 (4 * c + 3) = 0)
    (hguess : P.qGuess = P.q0)
    (hu : ∀ i, P.u i = 0)
    (hFg : ∀ i, P.Fg i = 0)
    (hkb : ∀ c, P.kappaBar c = (0, 0))
    (htb : ∀ c, P.twistBar c = 0)
    (hrt : ∀ c, P.refTwist c = 0)
    (hd : dot d d = 1) (hdt : dot d t = 0)
    (ha1 : ∀ c, c < P.nv - 1 → P.a1 c = d) :
    ObjfunReturnsQ P P.q0 := by
  have htang : ∀ c, c < P.nv - 1 → computeTangent P.q0 c = t := by
    intro c hc
    unfold computeTangent
    exact unitTangent_of_smul (hrefpos c hc) ht (hstraight c hc)
  have ha1It : ∀ c, c < P.nv - 1 → objfunA1It P P.q0 c = d := by
    intro c hc
    unfold objfunA1It timeParallelA1 timeParallelW
    rw [pt_self, ha1 c hc, htang c hc, hdt]
    simp [norm_eq_one_of_dot hd]
  have hrtIt : ∀ c, objfunRefTwistIt P P.q0 P.refTwist c = 0 := by
    intro c
    unfold objfunRefTwistIt getRefTwistF
    by_cases hcc : 1 ≤ c ∧ c < P.nv - 1
    · rw [if_pos hcc]
      obtain ⟨h1, h2⟩ := hcc
      rw [ha1It (c - 1) (by omega), ha1It c h2, htang (c - 1) (by omega),
        htang c h2, hrt c]
      unfold computeReferenceTwist
      rw [pt_self, rotateAxisAngle_zero, signedAngle_self t hd]
      ring
    · rw [if_neg hcc]
      exact hrt c
  have hFb : ∀ i, getFb_F P.q0 (objfunM1 P P.q0) (objfunM2 P P.q0) P.kappaBar
      P.EI P.voronoiRefLen P.nv i = 0 := by
    intro i
    unfold getFb_F
    rw [neg_eq_zero]
    apply Finset.sum_eq_zero
    intro c hcmem
    rw [Finset.mem_Ico] at hcmem
    obtain ⟨hc1, hc2⟩ := hcmem
    rcases hbl : bLoc c i with _ | k
    · rfl
    · have hc1e : c - 1 + 1 = c := by omega
      have hte : unitTangent (nodePos P.q0 (c - 1)) (nodePos P.q0 c) = t := by
        have hst := hstraight (c - 1) (by omega)
        rw [hc1e] at hst
        exact unitTangent_of_smul (hrefpos (c - 1) (by omega)) ht hst
      have htf : unitTangent (nodePos P.q0 c) (nodePos P.q0 (c + 1)) = t :=
        unitTangent_of_smul (hrefpos c hc2) ht (hstraight c hc2)
      have hkb0 := bendKb_zero_of_parallel hte htf
      have hkb1 : (P.kappaBar c).1 = 0 := by rw [hkb c]
      have hkb2 : (P.kappaBar c).2 = 0 := by rw [hkb c]
      rw [hkb1, hkb2]
      exact gradEb_dF_of_zero_kb
        (by unfold bendKappa1; rw [hkb0, dot_zero_left]; ring)
        (by unfold bendKappa2; rw [hkb0, dot_zero_left]; ring) k
  have hFt : ∀ i, getFt_F P.q0 (objfunRefTwistIt P P.q0 P.refTwist) P.twistBar
      P.GJ P.voronoiRefLen P.nv i = 0 := by
    intro i
    unfold getFt_F
    rw [neg_eq_zero]
    apply Finset.sum_eq_zero
    intro c hcmem
    rw [Finset.mem_Ico] at hcmem
    obtain ⟨hc1, hc2⟩ := hcmem
    rcases hbl : bLoc c i with _ | k
    · rfl
    · have h41 : 4 * c - 1 = 4 * (c - 1) + 3 := by omega
      have hth1 : P.q0 (4 * c - 1) = 0 := by
        rw [h41]
        exact hth (c - 1) (by omega)
      have hth2 : P.q0 (4 * c + 3) = 0 := hth c hc2
      rw [hth1, hth2, hrtIt c, htb c]
      exact gradEt_dF_of_zero_twist (by ring) k
  have hFs : ∀ i, getFs_F P.q0 P.EA P.refLen P.nv i = 0 := by
    intro i
    unfold getFs_F
    rw [neg_eq_zero]
    apply Finset.sum_eq_zero
    intro c hcmem
    rw [Finset.mem_range] at hcmem
    rcases hsl : sLoc c i with _ | k
    · rfl
    · exact gradEs_dF_zero_of_natural (hrefpos c hcmem) ht (hstraight c hcmem) k
  have hf : ∀ i, objfunF P P.q0 P.refTwist i = 0 := by
    intro i
    unfold objfunF
    rw [hFb i, hFt i, hFs i, hFg i, hu i]
    ring
  have hffree : objfunFFree P P.qGuess P.refTwist = 0 := by
    funext k
    show objfunF P P.qGuess P.refTwist (P.freeIndex.get k)
      = (0 : Fin P.freeIndex.length → ℝ) k
    rw [hguess, Pi.zero_apply]
    exact hf _
  have herr1 : objfunErr P 1 ≤ P.tol := by
    show objfunErrOf P P.qGuess P.refTwist ≤ P.tol
    have hzero : objfunErrOf P P.qGuess P.refTwist = 0 := by
      unfold objfunErrOf
      simp only [hffree]
      simp
    rw [hzero]
    exact le_of_lt htol
  have hdq : objfunDqFree P P.qGuess P.refTwist = 0 := by
    unfold objfunDqFree
    rw [hffree, Matrix.mulVec_zero]
  have hq1 : (objfunState P 1).1 = P.q0 := by
    show objfunQNew P P.qGuess P.refTwist = P.q0
    funext i
    unfold objfunQNew
    by_cases hmem : i ∈ P.freeIndex
    · rw [dif_pos hmem, hdq]
      show P.qGuess i - (0 : Fin P.freeIndex.length → ℝ) _ = P.q0 i
      rw [Pi.zero_apply, sub_zero, hguess]
    · rw [dif_neg hmem, hguess]
  refine ⟨1, le_refl 1, herr1, ?_, hq1.symm⟩
  intro k hk
  have hk0 : k = 0 := by omega
  subst hk0
  show P.tol < 10 * P.tol
  linarith

/-- The straight 3-node DOF vector of the witness: nodes (0,0,0), (1,0,0),
(2,0,0), twist angles zero. -/
def cQ2 : ℕ → ℝ := fun i => if i = 4 then 1 else if i = 8 then 2 else 0

/-- The witness argument record: the straight rod cQ2 at rest, unit
parameters, clamped first two nodes and first twist angle. -/
def cP2 : ObjfunArgs where
  nv := 3
  qGuess := cQ2
  q0 := cQ2
  u := fun _ => 0
  a1 := fun _ => ⟨0, 0, 1⟩
  a2 := fun _ => ⟨0, 1, 0⟩
  freeIndex := [7, 8, 9, 10]
  dt := 1
  tol := 1
  refTwist := fun _ => 0
  massVector := fun _ => 1
  mMat := fun i j => if i = j then 1 else 0
  EA := 1
  refLen := fun _ => 1
  EI := 1
  GJ := 1
  voronoiRefLen := fun _ => 1
  kappaBar := fun _ => (0, 0)
  twistBar := fun _ => 0
  Fg := fun _ => 0

/-- Witness for C2: on the concrete straight rod cP2, objfun terminates
and returns q0. -/
theorem straight_rod_one_step_fixed_witness : ObjfunReturnsQ cP2 cP2.q0 := by
  apply straight_rod_one_step_fixed cP2 ⟨1, 0, 0⟩ ⟨0, 0, 1⟩
  · norm_num [cP2]
  · norm_num [Vec3.dot]
  · intro c hc
    norm_num [cP2]
  · intro c hc
    have hc2 : c < 2 := hc
    clear hc
    interval_cases c <;> (ext <;> norm_num [cP2, cQ2, nodePos])
  · intro c hc
    have hc2 : c < 2 := hc
    clear hc
    interval_cases c <;> norm_num [cP2, cQ2]
  · rfl
  · intro i
    rfl
  · intro i
    rfl
  · intro c
    rfl
  · intro c
    rfl
  · intro c
    rfl
  · norm_num [Vec3.dot]
  · norm_num [Vec3.dot]
  · intro c hc
    rfl

end DER
